import Mathlib

/-!
Verification development for the polonium tiling driver.

The driver code (class TilingDriver in driver.ts) and the shortcut
resolver (actions/shortcuts.ts) are embedded shallowly below.  The
abstract engine (module engine: TilingEngine, Tile, Client,
EngineCapability), the geometry utilities (util/geometry) and the host
windowing system (KWin live tiles and windows) are collaborators whose
code is not part of the given sources; where the driver needs their
behaviour it is modelled from the specification, and each such
definition is marked in its doc comment.

Conventions of the embedding:
 - object identity is modelled by natural-number ids; live tiles,
   windows, abstract tiles and clients each draw from their own space;
 - the mutable object graph of the program becomes explicit state
   passing over DriverState;
 - JavaScript exceptions that escape a driver method are the `some e`
   component of the returned pair, with the first component holding the
   state as mutated up to the throwing call (field mutations persist in
   JavaScript even when an exception propagates);
 - engine calls are opaque transition functions returning Except; a
   failing engine call is modelled as leaving the engine state as it was
   when the call started;
 - the error log of the driver is a list of messages (debug output is
   not modelled, only logger.error calls, which is what the claims are
   about).
-/

/-- Rational rectangle, standing in for a Qt QRect (x, y, width, height). -/
structure QRect where
  x : ℚ
  y : ℚ
  w : ℚ
  h : ℚ
  deriving DecidableEq

/-- Rational point, standing in for GPoint of util/geometry. -/
structure GPoint where
  x : ℚ
  y : ℚ
  deriving DecidableEq

/-- Modelled from the spec: GPoint.centerOfRect of util/geometry (missing
from the given sources) returns the center of the rectangle. -/
def centerOfRect (r : QRect) : GPoint :=
  ⟨r.x + r.w / 2, r.y + r.h / 2⟩

/-- Modelled from the spec: the four-way direction enum of util/geometry
(missing from the given sources), used as placement hint. -/
inductive UDirection where
  | above
  | below
  | left
  | right
  deriving DecidableEq

/-- Modelled from the spec: DirectionTools.rotateCw of util/geometry
(missing from the given sources) rotates a direction 90 degrees
clockwise. -/
def rotateCw : UDirection → UDirection
  | .above => .right
  | .right => .below
  | .below => .left
  | .left => .above

/-- Modelled from the spec: the InsertionPoint policy enum of util/config
(missing from the given sources); only the distinction between the
active-position policy and the default policies matters to the driver. -/
inductive InsertionPoint where
  | left
  | right
  | active
  deriving DecidableEq

namespace EngineCapability

/-- Modelled from the spec: capability bit for engines whose direction
convention needs the clockwise rotation translation. -/
def TranslateRotation : Nat := 1

/-- Modelled from the spec: capability bit for engines whose abstract
tiles may be created and destroyed by the driver. -/
def TilesMutable : Nat := 2

end EngineCapability

/-! ### Association-list helpers

The two identity maps of the driver are mnemonist BiMap instances
(bidirectional, bijection-maintaining).  They are embedded as
association lists of (key, value) pairs; `biSet` drops any pair that
conflicts with the inserted one in either coordinate, which is exactly
what BiMap.set does. -/

/-- Lookup by key (BiMap.get / map get). -/
def alookup {α : Type} : List (Nat × α) → Nat → Option α
  | [], _ => none
  | p :: rest, k => if p.1 = k then some p.2 else alookup rest k

/-- Lookup by value (BiMap.inverse.get). -/
def alookupInv : List (Nat × Nat) → Nat → Option Nat
  | [], _ => none
  | p :: rest, v => if p.2 = v then some p.1 else alookupInv rest v

/-- Key membership test (BiMap.has). -/
def hasKey {α : Type} (m : List (Nat × α)) (k : Nat) : Bool :=
  (alookup m k).isSome

/-- BiMap.set: insert the pair (k, v), dropping any pair that has key k
or value v. -/
def biSet (m : List (Nat × Nat)) (k v : Nat) : List (Nat × Nat) :=
  (k, v) :: m.filter (fun p => decide (p.1 ≠ k) && decide (p.2 ≠ v))

/-- BiMap.delete by key. -/
def biDelKey (m : List (Nat × Nat)) (k : Nat) : List (Nat × Nat) :=
  m.filter (fun p => decide (p.1 ≠ k))

/-- BiMap.inverse.delete: delete by value. -/
def biDelVal (m : List (Nat × Nat)) (v : Nat) : List (Nat × Nat) :=
  m.filter (fun p => decide (p.2 ≠ v))

/-- Plain map set: replace the binding of k (used for stores that are
keyed one way only). -/
def aset {α : Type} (m : List (Nat × α)) (k : Nat) (v : α) : List (Nat × α) :=
  (k, v) :: m.filter (fun p => decide (p.1 ≠ k))

/-- Update the value bound to k in place, leaving other entries alone. -/
def aupdate {α : Type} : List (Nat × α) → Nat → (α → α) → List (Nat × α)
  | [], _, _ => []
  | p :: rest, k, f => (if p.1 = k then (p.1, f p.2) else p) :: aupdate rest k f

/-! ### Abstract engine model -/

/-- Modelled from the spec: one node of the abstract tile tree owned by
the engine (module engine, missing from the given sources): ordered
child list, at most one occupant client, and a layout direction
(0 floating, 1 horizontal, 2 vertical, as in the host). -/
structure ATileData where
  children : List Nat
  client : Option Nat
  layoutDirection : Nat
  deriving DecidableEq

/-- Modelled from the spec: the externally visible state of the abstract
engine: its tile tree (a store of nodes keyed by id plus the root id),
the set of currently unplaced clients, the per-node requested sizes (the
requestedSize attribute of abstract tiles, kept in a side map keyed by
node id), its configuration and capability bitset, a counter providing
fresh node ids for addChild, and an otherwise opaque internal component. -/
structure EngineState where
  atiles : List (Nat × ATileData)
  rootId : Nat
  untiledClients : List Nat
  requestedSizes : List (Nat × (ℚ × ℚ))
  insertionPoint : InsertionPoint
  rotateLayout : Bool
  engineCapability : Nat
  nextAtId : Nat
  internals : Nat
  deriving DecidableEq

/-- Modelled from the spec: the callable surface of the abstract engine.
Each call either throws (Except.error) or succeeds with a new engine
state.  The driver treats these as opaque. -/
structure EngineOps where
  putClientInTile : Nat → Nat → Option UDirection → EngineState → Except String EngineState
  addClient : Nat → EngineState → Except String EngineState
  removeClient : Nat → EngineState → Except String EngineState
  buildLayout : EngineState → Except String EngineState
  regenerateLayout : EngineState → Except String EngineState

/-- Modelled from the spec: removal of an abstract tree node (Tile.remove
of the engine, missing from the given sources): the node is dropped from
the store and detached from every child list. -/
def removeChildA (m : List (Nat × ATileData)) (x : Nat) : List (Nat × ATileData) :=
  (m.filter (fun p => decide (p.1 ≠ x))).map
    (fun p => (p.1, { p.2 with children := p.2.children.filter (fun c => decide (c ≠ x)) }))

/-- Modelled from the spec: the child-adding primitive of the abstract
tree (Tile.addChild of the engine, missing from the given sources): a
fresh unoccupied leaf is appended to the child list of node t. -/
def addChildA (m : List (Nat × ATileData)) (t newId : Nat) : List (Nat × ATileData) :=
  (newId, { children := [], client := none, layoutDirection := 0 }) ::
    aupdate m t (fun d => { d with children := d.children ++ [newId] })

/-! ### Host (KWin) model -/

/-- One live tile of the host: child list, parent, layout direction,
relative and absolute geometry, and padding (kwin.d.ts declares this
interface; the data lives host-side). -/
structure KTileData where
  tiles : List Nat
  parent : Option Nat
  layoutDirection : Nat
  rel : QRect
  abs : QRect
  padding : ℚ
  deriving DecidableEq

/-- One live window of the host: frame geometry, currently assigned tile,
and the minimize / fullscreen / maximize flags the driver toggles. -/
structure WindowData where
  frame : QRect
  tile : Option Nat
  minimized : Bool
  fullScreen : Bool
  maxH : Bool
  maxV : Bool
  deriving DecidableEq

/-- Per-window extension record kept by the controller: whether the
window is host-maximized, and its last tiled location. -/
structure WinExt where
  maximized : Bool
  lastTiledLocation : Option GPoint
  deriving DecidableEq

/-- Halve a rectangle along a layout direction (1 is horizontal); returns
the two halves. -/
def splitRect (r : QRect) (dir : Nat) : QRect × QRect :=
  if dir = 1 then
    (⟨r.x, r.y, r.w / 2, r.h⟩, ⟨r.x + r.w / 2, r.y, r.w / 2, r.h⟩)
  else
    (⟨r.x, r.y, r.w, r.h / 2⟩, ⟨r.x, r.y + r.h / 2, r.w, r.h / 2⟩)

/-- Insert x right after the first occurrence of a in the list. -/
def insertAfter (l : List Nat) (a x : Nat) : List Nat :=
  match l with
  | [] => []
  | b :: rest => if b = a then b :: x :: rest else b :: insertAfter rest a x

/-- Modelled from the spec: the split mutator of the host live tile.  A
childless tile with no parent (the cleared root) gets two children, each
occupying half of its area along the direction; a childless tile with a
parent is halved and a new sibling holding the other half is inserted
right after it in the parent child list (the idiosyncratic host
behaviour the spec points out, where splitting child i-1 produces the
next sibling).  Splitting a tile that already has children is not used
by the driver on the states the claims concern and is modelled as a
no-op. -/
def ksplit (st : List (Nat × KTileData)) (nid : Nat) (tid : Nat) (dir : Nat) :
    List (Nat × KTileData) × Nat :=
  match alookup st tid with
  | none => (st, nid)
  | some t =>
    if t.tiles ≠ [] then (st, nid)
    else
      match t.parent with
      | none =>
        let halves := splitRect t.rel dir
        let ahalves := splitRect t.abs dir
        let child1 : KTileData :=
          { tiles := [], parent := some tid, layoutDirection := t.layoutDirection,
            rel := halves.1, abs := ahalves.1, padding := t.padding }
        let child2 : KTileData :=
          { tiles := [], parent := some tid, layoutDirection := t.layoutDirection,
            rel := halves.2, abs := ahalves.2, padding := t.padding }
        ((nid, child1) :: (nid + 1, child2) ::
            aupdate st tid (fun d => { d with tiles := [nid, nid + 1] }),
          nid + 2)
      | some p =>
        let halves := splitRect t.rel dir
        let ahalves := splitRect t.abs dir
        let sib : KTileData :=
          { tiles := [], parent := some p, layoutDirection := t.layoutDirection,
            rel := halves.2, abs := ahalves.2, padding := t.padding }
        ((nid, sib) ::
            aupdate (aupdate st tid (fun d => { d with rel := halves.1, abs := ahalves.1 }))
              p (fun d => { d with tiles := insertAfter d.tiles tid nid }),
          nid + 1)

/-! ### Driver state -/

/-- The full state a TilingDriver method can observe and mutate: the
engine, the two identity maps (tiles: live tile id to abstract tile id;
clients: window id to client id), the untiled window list, the live tile
store and window store of the host, the controller side tables, the
active window of the workspace, fresh-id counters standing for object
allocation, the maximizeSingle configuration flag, and the error log. -/
structure DriverState where
  engine : EngineState
  engineType : Nat
  tiles : List (Nat × Nat)
  clients : List (Nat × Nat)
  untiledWindows : List Nat
  kstore : List (Nat × KTileData)
  windows : List (Nat × WindowData)
  windowExtensions : List (Nat × WinExt)
  managedTiles : List Nat
  activeWindow : Option Nat
  nextLiveId : Nat
  nextClientId : Nat
  maximizeSingle : Bool
  logs : List String
  deriving DecidableEq

/-- Apply an update to one live tile in the host store. -/
def setKTile (s : DriverState) (kt : Nat) (f : KTileData → KTileData) : DriverState :=
  { s with kstore := aupdate s.kstore kt f }

/-- Apply an update to one window in the host store. -/
def setWindow (s : DriverState) (w : Nat) (f : WindowData → WindowData) : DriverState :=
  { s with windows := aupdate s.windows w f }

/-- Run a split on a live tile, threading the fresh-id counter. -/
def splitTile (s : DriverState) (tid : Nat) (dir : Nat) : DriverState :=
  let r := ksplit s.kstore s.nextLiveId tid dir
  { s with kstore := r.1, nextLiveId := r.2 }

/-! ### TilingDriver.addWindow (driver.ts lines 403-436)

The labelled activeChecks block computes whether the active-insertion
path applies; when it does, engine.putClientInTile is called OUTSIDE the
try block (only the default addClient call and the engine buildLayout
call sit inside it). -/

/-- The abstract tile the active-insertion path of addWindow would place
next to: present exactly when the insertion policy is active, a current
active window exists, it has a live tile, and that live tile is in the
tile map (driver.ts lines 412-425). -/
def activeTarget (s : DriverState) : Option Nat :=
  if s.engine.insertionPoint = InsertionPoint.active then
    match s.activeWindow with
    | none => none
    | some aw =>
      match (alookup s.windows aw).bind (fun wd => wd.tile) with
      | none => none
      | some awTile => alookup s.tiles awTile
  else none

/-- TilingDriver.addWindow.  Returns the mutated driver state and, in the
second component, an exception that escaped to the caller (if any). -/
def addWindow (ops : EngineOps) (s : DriverState) (w : Nat) : DriverState × Option String :=
  if hasKey s.clients w then (s, none)
  else
    -- lines 407-408: const client = new Client(window); clients.set
    let c := s.nextClientId
    let s := { s with clients := biSet s.clients w c, nextClientId := c + 1 }
    match activeTarget s with
    | some atId =>
      -- line 426: putClientInTile, outside the try block
      match ops.putClientInTile c atId none s.engine with
      | .error e => (s, some e)
      | .ok es =>
        -- lines 428-435 with failedActive false: only engine.buildLayout
        let s := { s with engine := es }
        match ops.buildLayout s.engine with
        | .error e => ({ s with logs := s.logs ++ [e] }, none)
        | .ok es2 => ({ s with engine := es2 }, none)
    | none =>
      -- lines 428-435 with failedActive true: addClient then buildLayout
      match ops.addClient c s.engine with
      | .error e => ({ s with logs := s.logs ++ [e] }, none)
      | .ok es =>
        let s := { s with engine := es }
        match ops.buildLayout s.engine with
        | .error e => ({ s with logs := s.logs ++ [e] }, none)
        | .ok es2 => ({ s with engine := es2 }, none)

/-- TilingDriver.removeWindow (driver.ts lines 438-451). -/
def removeWindow (ops : EngineOps) (s : DriverState) (w : Nat) : DriverState × Option String :=
  match alookup s.clients w with
  | none => (s, none)
  | some c =>
    let s := { s with clients := biDelKey s.clients w,
                      untiledWindows := s.untiledWindows ++ [w] }
    match ops.removeClient c s.engine with
    | .error e => ({ s with logs := s.logs ++ [e] }, none)
    | .ok es =>
      let s := { s with engine := es }
      match ops.buildLayout s.engine with
      | .error e => ({ s with logs := s.logs ++ [e] }, none)
      | .ok es2 => ({ s with engine := es2 }, none)

/-- TilingDriver.putWindowInTile (driver.ts lines 453-486).  The rotation
translation applies exactly when a direction was supplied, rotation is
enabled in the engine configuration, and the capability bitset contains
the TranslateRotation bit. -/
def putWindowInTile (ops : EngineOps) (s : DriverState) (w : Nat) (kt : Nat)
    (direction : Option UDirection) : DriverState × Option String :=
  match alookup s.tiles kt with
  | none => ({ s with logs := s.logs ++ ["Tile not registered"] }, none)
  | some t =>
    let s :=
      if hasKey s.clients w then s
      else { s with clients := biSet s.clients w s.nextClientId,
                    nextClientId := s.nextClientId + 1 }
    match alookup s.clients w with
    | none => (s, some "TypeError")
    | some c =>
      let rotatedDirection : Option UDirection :=
        match direction with
        | none => none
        | some d =>
          if s.engine.rotateLayout = true ∧
              s.engine.engineCapability &&& EngineCapability.TranslateRotation =
                EngineCapability.TranslateRotation
          then some (rotateCw d)
          else some d
      match ops.putClientInTile c t rotatedDirection s.engine with
      | .error e => ({ s with logs := s.logs ++ [e] }, none)
      | .ok es =>
        let s := { s with engine := es }
        match ops.buildLayout s.engine with
        | .error e => ({ s with logs := s.logs ++ [e] }, none)
        | .ok es2 => ({ s with engine := es2 }, none)

/-- The client re-adding loop of switchEngine: stops at the first engine
exception, keeping the engine state accumulated so far. -/
def addAllClients (ops : EngineOps) : List Nat → EngineState → EngineState × Option String
  | [], es => (es, none)
  | c :: rest, es =>
    match ops.addClient c es with
    | .error e => (es, some e)
    | .ok es2 => addAllClients ops rest es2

/-- TilingDriver.switchEngine (driver.ts lines 296-307). -/
def switchEngine (ops : EngineOps) (s : DriverState) (newEngine : EngineState)
    (newType : Nat) : DriverState × Option String :=
  let s := { s with engine := newEngine, engineType := newType }
  match addAllClients ops (s.clients.map Prod.snd) s.engine with
  | (es, some e) => ({ s with engine := es, logs := s.logs ++ [e] }, none)
  | (es, none) =>
    match ops.buildLayout es with
    | .error e => ({ s with engine := es, logs := s.logs ++ [e] }, none)
    | .ok es2 => ({ s with engine := es2 }, none)

/-! ### TilingDriver.buildLayout (driver.ts lines 309-401) -/

/-- The real-root descent of buildLayout (lines 323-327): follow the
unique child while the node has exactly one child and no occupant.  The
abstract tree is a finite store, so the descent is fuelled by the store
size; a missing node is returned as is (engine objects always exist, a
missing store entry only arises for malformed engine trees). -/
def descend (es : EngineState) : Nat → Nat → Nat
  | 0, t => t
  | fuel + 1, t =>
    match alookup es.atiles t with
    | none => t
    | some d =>
      match d.children, d.client with
      | [c], none => descend es fuel c
      | _, _ => t

/-- Occupant handling at the end of one BFS iteration of buildLayout
(lines 374-391).  Result code: 0 continue, 1 the whole rebuild returns
after logging (unresolved client, lines 376-379), 2 crash (the
windowExtensions.get non-null assertion failed). -/
def occupantStep (s : DriverState) (node : ATileData) (kt : Nat) : DriverState × Nat :=
  match node.client with
  | none => (s, 0)
  | some c =>
    match alookupInv s.clients c with
    | none => ({ s with logs := s.logs ++ ["Client does not exist"] }, 1)
    | some w =>
      match alookup s.windowExtensions w with
      | none => (s, 2)
      | some ext =>
        let s := setWindow s w (fun wd => { wd with minimized := false, fullScreen := false })
        let s :=
          if ext.maximized then
            setWindow s w (fun wd => { wd with maxH := false, maxV := false })
          else s
        let s := setWindow s w (fun wd => { wd with tile := some kt })
        let cen := centerOfRect (((alookup s.kstore kt).map (fun kd => kd.abs)).getD ⟨0, 0, 0, 0⟩)
        ({ s with windowExtensions :=
            aupdate s.windowExtensions w (fun e => { e with lastTiledLocation := some cen }) }, 0)

/-- The split mutation of loop iteration i of buildLayout (driver.ts
lines 352-356): at i = 0 the live tile itself is split; for i greater
than 1 the live child i-1 is split (producing live child i); at i = 1
nothing is split. -/
def splitStepA (s : DriverState) (kt dir : Nat) (i : Nat) : DriverState × Option String :=
  if i = 0 then (splitTile s kt dir, none)
  else if 1 < i then
    match (alookup s.kstore kt).bind (fun kd => kd.tiles.get? (i - 1)) with
    | some cid => (splitTile s cid dir, none)
    | none => (s, some "TypeError")
  else (s, none)

/-- The even size pre-distribution of loop iteration i of buildLayout
(driver.ts lines 357-363): for positive i, live child i-1 gets an even
share of the parent geometry along the split axis. -/
def splitStepB (s : DriverState) (kt tilesLen : Nat) (horizontal : Bool) (i : Nat) :
    DriverState × Option String :=
  if 0 < i then
    match alookup s.kstore kt with
    | none => (s, some "TypeError")
    | some kd =>
      match kd.tiles.get? (i - 1) with
      | none => (s, some "TypeError")
      | some cid =>
        if horizontal then
          (setKTile s cid (fun c => { c with rel := { c.rel with w := kd.rel.w / (tilesLen : ℚ) } }), none)
        else
          (setKTile s cid (fun c => { c with rel := { c.rel with h := kd.rel.h / (tilesLen : ℚ) } }), none)
  else (s, none)

/-- The inner split loop of buildLayout (lines 350-367), iterating the
index i over [0, tilesLen): the split mutation (splitStepA), the even
size pre-distribution (splitStepB), and finally the mapping of live
child i to abstract child i (line 365).  The queueing of abstract
children (line 366) is done by the caller after the loop, which is
equivalent because the loop never reads the queue. -/
def splitLoop (kt : Nat) (achildren : List Nat) (tilesLen : Nat) (dir : Nat)
    (horizontal : Bool) : List Nat → DriverState → DriverState × Option String
  | [], s => (s, none)
  | i :: rest, s =>
    match splitStepA s kt dir i with
    | (s, some e) => (s, some e)
    | (s, none) =>
      match splitStepB s kt tilesLen horizontal i with
      | (s, some e) => (s, some e)
      | (s, none) =>
        match (alookup s.kstore kt).bind (fun kd => kd.tiles.get? i), achildren.get? i with
        | some kci, some aci =>
          splitLoop kt achildren tilesLen dir horizontal rest
            { s with tiles := biSet s.tiles kci aci }
        | _, _ => (s, some "TypeError")

/-- The head of one BFS iteration of buildLayout (lines 344-345): record
the live tile as managed and push the abstract layout direction onto it. -/
def bfsPre (s : DriverState) (kt ld : Nat) : DriverState :=
  setKTile { s with managedTiles := s.managedTiles ++ [kt] } kt
    (fun kd => { kd with layoutDirection := ld })

/-- The breadth-first reconciliation loop of buildLayout (lines 338-392),
fuelled by the abstract store size (each abstract node is dequeued at
most once on well-formed trees; running out of fuel is reported like a
crash).  The queue holds abstract node ids. -/
def bfsBuild : Nat → DriverState → List Nat → DriverState × Option String
  | 0, s, _ => (s, some "fuel")
  | _, s, [] => (s, none)
  | fuel + 1, s, t :: queue =>
    match alookupInv s.tiles t with
    | none => (s, some "TypeError")
    | some kt =>
      match alookup s.engine.atiles t with
      | none => (s, some "TypeError")
      | some node =>
        let s := bfsPre s kt node.layoutDirection
        let horizontal := node.layoutDirection = 1
        let tilesLen := node.children.length
        if 1 < tilesLen then
          match splitLoop kt node.children tilesLen node.layoutDirection horizontal
              (List.range tilesLen) s with
          | (s, some e) => (s, some e)
          | (s, none) =>
            match occupantStep s node kt with
            | (s, 0) => bfsBuild fuel s (queue ++ node.children)
            | (s, 1) => (s, none)
            | (s, _) => (s, some "TypeError")
        else
          match node.children with
          | [c] =>
            -- line 369-373: collapse, remap the same live tile to the child
            let s := { s with tiles := biSet s.tiles kt c }
            match occupantStep s node kt with
            | (s, 0) => bfsBuild fuel s (queue ++ [c])
            | (s, 1) => (s, none)
            | (s, _) => (s, some "TypeError")
          | _ =>
            match occupantStep s node kt with
            | (s, 0) => bfsBuild fuel s queue
            | (s, 1) => (s, none)
            | (s, _) => (s, some "TypeError")

/-- The fixSizing post-pass (lines 398-401) is an empty stub in the
source (a TODO), hence the identity here. -/
def fixSizing (s : DriverState) : DriverState := s

/-- The opening of buildLayout (driver.ts lines 310-321): remove every
live child of the root, clear the tile map and the untiled list, then
recompute the untiled list from the engine set of unplaced clients. -/
def buildPrep (s : DriverState) (rootId : Nat) : DriverState :=
  let s := setKTile s rootId (fun t => { t with tiles := [] })
  let s := { s with tiles := [], untiledWindows := [] }
  { s with untiledWindows :=
      s.engine.untiledClients.filterMap (fun c => alookupInv s.clients c) }

/-- TilingDriver.buildLayout (driver.ts lines 309-396).  Because
fixSizing is the identity, applying it uniformly at the end is
indistinguishable from the source, where the early returns skip it. -/
def buildLayoutD (s : DriverState) (rootId : Nat) : DriverState × Option String :=
  let s := buildPrep s rootId
  -- lines 323-327: find the real root
  let realRootId := descend s.engine (s.engine.atiles.length + 1) s.engine.rootId
  let rclient := (alookup s.engine.atiles realRootId).bind (fun d => d.client)
  -- lines 328-337: single-window maximize shortcut
  match rclient, s.maximizeSingle with
  | some c, true =>
    match alookupInv s.clients c with
    | none => (s, none)
    | some w =>
      let s := setWindow s w (fun wd => { wd with tile := none })
      let s := setWindow s w (fun wd => { wd with maxH := true, maxV := true })
      (fixSizing s, none)
  | _, _ =>
    -- lines 338-340: seed the queue and map the root
    let s := { s with tiles := biSet s.tiles rootId realRootId }
    let r := bfsBuild (s.engine.atiles.length + 1) s [realRootId]
    (fixSizing r.1, r.2)

/-! ### TilingDriver.regenerateLayout (driver.ts lines 488-530) -/

/-- Loop body of driver.ts lines 506-511: an abstract child with no live
counterpart is deleted from the inverse tile map (a no-op, the binding
is absent) and removed from the abstract tree. -/
def regenRemoveStep (s : DriverState) (x : Nat) : DriverState :=
  match alookupInv s.tiles x with
  | some _ => s
  | none =>
    { s with tiles := biDelVal s.tiles x,
             engine := { s.engine with atiles := removeChildA s.engine.atiles x } }

/-- Loop body of driver.ts lines 513-518: a live child with no mapped
abstract counterpart gets a fresh abstract child node of t, which is
registered in the tile map. -/
def regenCreateStep (t : Nat) (s : DriverState) (ck : Nat) : DriverState :=
  if hasKey s.tiles ck then s
  else
    { s with engine := { s.engine with
                atiles := addChildA s.engine.atiles t s.engine.nextAtId,
                nextAtId := s.engine.nextAtId + 1 },
             tiles := biSet s.tiles ck s.engine.nextAtId }

/-- One iteration of the regenerateLayout loop for a dequeued live tile
(lines 492-522): resolve the abstract counterpart (log and skip the
subtree on failure), push the live absolute geometry into the abstract
requested size, and, when the engine declares its tiles mutable,
synchronize structure through the two loop bodies above.  Returns the
state and the live children to enqueue. -/
def regenProcessTile (s : DriverState) (kt : Nat) : DriverState × List Nat :=
  match alookup s.tiles kt with
  | none => ({ s with logs := s.logs ++ ["Tile not registered"] }, [])
  | some t =>
    let geo := ((alookup s.kstore kt).map (fun kd => kd.abs)).getD ⟨0, 0, 0, 0⟩
    let s := { s with engine :=
        { s.engine with requestedSizes := aset s.engine.requestedSizes t (geo.w, geo.h) } }
    let s :=
      if s.engine.engineCapability &&& EngineCapability.TilesMutable =
          EngineCapability.TilesMutable then
        let achildren := ((alookup s.engine.atiles t).map (fun d => d.children)).getD []
        let s := achildren.foldl regenRemoveStep s
        let kchildren := ((alookup s.kstore kt).map (fun kd => kd.tiles)).getD []
        kchildren.foldl (regenCreateStep t) s
      else s
    (s, ((alookup s.kstore kt).map (fun kd => kd.tiles)).getD [])

/-- The breadth-first walk of the live tree in regenerateLayout, fuelled
by the live store size (each live tile is dequeued at most once on
well-formed trees). -/
def regenBfs : Nat → DriverState → List Nat → DriverState
  | 0, s, _ => s
  | _, s, [] => s
  | fuel + 1, s, kt :: queue =>
    let r := regenProcessTile s kt
    regenBfs fuel r.1 (queue ++ r.2)

/-- TilingDriver.regenerateLayout (driver.ts lines 488-530). -/
def regenerateLayout (ops : EngineOps) (s : DriverState) (rootId : Nat) :
    DriverState × Option String :=
  let s := regenBfs (s.kstore.length + 1) s [rootId]
  match ops.regenerateLayout s.engine with
  | .error e => ({ s with logs := s.logs ++ [e] }, none)
  | .ok es =>
    match ops.buildLayout es with
    | .error e => ({ s with engine := es, logs := s.logs ++ [e] }, none)
    | .ok es2 => ({ s with engine := es2 }, none)

/-! ### Directional command resolver (actions/shortcuts.ts lines 10-86) -/

namespace Shortcuts

/-- The live tile as the resolver sees it: only its padding is read. -/
structure STile where
  padding : ℚ
  deriving DecidableEq

/-- The live window as the resolver sees it: frame geometry and the
optional assigned tile. -/
structure SWindow where
  frameGeometry : QRect
  tile : Option STile
  deriving DecidableEq

/-- The local Direction enum of actions/shortcuts.ts (lines 10-15). -/
inductive Direction where
  | above
  | below
  | left
  | right
  deriving DecidableEq

/-- pointAbove (shortcuts.ts lines 17-29). -/
def pointAbove (window : SWindow) : Option GPoint :=
  match window.tile with
  | none => none
  | some t =>
    let geometry := window.frameGeometry
    let coordOffset := 1 + t.padding
    let x := geometry.x + 1
    let y := geometry.y - coordOffset
    some ⟨x, y⟩

/-- pointBelow (shortcuts.ts lines 31-43). -/
def pointBelow (window : SWindow) : Option GPoint :=
  match window.tile with
  | none => none
  | some t =>
    let geometry := window.frameGeometry
    let coordOffset := 1 + geometry.h + t.padding
    let x := geometry.x + 1
    let y := geometry.y + coordOffset
    some ⟨x, y⟩

/-- pointLeft (shortcuts.ts lines 45-57). -/
def pointLeft (window : SWindow) : Option GPoint :=
  match window.tile with
  | none => none
  | some t =>
    let geometry := window.frameGeometry
    let coordOffset := 1 + t.padding
    let x := geometry.x - coordOffset
    let y := geometry.y + 1
    some ⟨x, y⟩

/-- pointRight (shortcuts.ts lines 59-71). -/
def pointRight (window : SWindow) : Option GPoint :=
  match window.tile with
  | none => none
  | some t =>
    let geometry := window.frameGeometry
    let coordOffset := 1 + geometry.w + t.padding
    let x := geometry.x + coordOffset
    let y := geometry.y + 1
    some ⟨x, y⟩

/-- pointInDirection (shortcuts.ts lines 73-86). -/
def pointInDirection (window : SWindow) (direction : Direction) : Option GPoint :=
  match direction with
  | .above => pointAbove window
  | .below => pointBelow window
  | .left => pointLeft window
  | .right => pointRight window

end Shortcuts

/-! ### Basic lemmas about the map helpers -/

theorem alookup_eq_none_iff {α : Type} (m : List (Nat × α)) (k : Nat) :
    alookup m k = none ↔ ∀ p ∈ m, p.1 ≠ k := by
  induction m with
  | nil => simp [alookup]
  | cons p rest ih =>
    by_cases hp : p.1 = k <;> simp [alookup, hp, ih]

theorem hasKey_eq_false_iff {α : Type} (m : List (Nat × α)) (k : Nat) :
    hasKey m k = false ↔ ∀ p ∈ m, p.1 ≠ k := by
  constructor
  · intro h
    rw [← alookup_eq_none_iff]
    cases hA : alookup m k with
    | none => rfl
    | some v => simp [hasKey, hA] at h
  · intro h
    simp [hasKey, (alookup_eq_none_iff m k).2 h]

@[simp] theorem alookup_biSet_self (m : List (Nat × Nat)) (k v : Nat) :
    alookup (biSet m k v) k = some v := by
  simp [biSet, alookup]

@[simp] theorem hasKey_biSet_self (m : List (Nat × Nat)) (k v : Nat) :
    hasKey (biSet m k v) k = true := by
  simp [hasKey]

theorem biDelKey_biSet (m : List (Nat × Nat)) (k v : Nat)
    (hk : ∀ p ∈ m, p.1 ≠ k) (hv : ∀ p ∈ m, p.2 ≠ v) :
    biDelKey (biSet m k v) k = m := by
  have h1 : m.filter (fun p => decide (p.1 ≠ k) && decide (p.2 ≠ v)) = m :=
    List.filter_eq_self.2 (fun p hp => by simp [hk p hp, hv p hp])
  have h2 : m.filter (fun p => decide (p.1 ≠ k)) = m :=
    List.filter_eq_self.2 (fun p hp => by simp [hk p hp])
  simp only [biDelKey, biSet, List.filter_cons]
  simp [h2]
  exact fun a b hab => ⟨hk (a, b) hab, hv (a, b) hab⟩

/-- Benign engine: every call succeeds and leaves the engine unchanged. -/
def okOps : EngineOps where
  putClientInTile := fun _ _ _ es => Except.ok es
  addClient := fun _ es => Except.ok es
  removeClient := fun _ es => Except.ok es
  buildLayout := fun es => Except.ok es
  regenerateLayout := fun es => Except.ok es

/-- A small concrete engine state used by witnesses. -/
def es0 : EngineState :=
  { atiles := [], rootId := 0, untiledClients := [], requestedSizes := [],
    insertionPoint := InsertionPoint.left, rotateLayout := false,
    engineCapability := 0, nextAtId := 0, internals := 0 }

/-- A small concrete driver state used by witnesses. -/
def s0 : DriverState :=
  { engine := es0, engineType := 0, tiles := [], clients := [],
    untiledWindows := [], kstore := [], windows := [], windowExtensions := [],
    managedTiles := [], activeWindow := none, nextLiveId := 0,
    nextClientId := 0, maximizeSingle := false, logs := [] }

/-! ### Claim C9 -/

/-- Claim C9: for every window and each of the four directions, the
probe point of the directional resolver lies strictly outside the frame
rectangle of the window on the requested side, at an offset of exactly
one unit of margin plus the tile padding of the window beyond that edge,
with the orthogonal coordinate one unit inside the top-left corner of
the frame; and the computation returns none whenever the window has no
assigned tile. -/
theorem c9_probe_point (w : Shortcuts.SWindow) (d : Shortcuts.Direction) :
    (w.tile = none → Shortcuts.pointInDirection w d = none) ∧
    (∀ t, w.tile = some t → 0 ≤ t.padding →
      ∃ p, Shortcuts.pointInDirection w d = some p ∧
        (match d with
         | .above => p.x = w.frameGeometry.x + 1 ∧ p.y < w.frameGeometry.y ∧
             w.frameGeometry.y - p.y = 1 + t.padding
         | .below => p.x = w.frameGeometry.x + 1 ∧
             w.frameGeometry.y + w.frameGeometry.h < p.y ∧
             p.y - (w.frameGeometry.y + w.frameGeometry.h) = 1 + t.padding
         | .left => p.y = w.frameGeometry.y + 1 ∧ p.x < w.frameGeometry.x ∧
             w.frameGeometry.x - p.x = 1 + t.padding
         | .right => p.y = w.frameGeometry.y + 1 ∧
             w.frameGeometry.x + w.frameGeometry.w < p.x ∧
             p.x - (w.frameGeometry.x + w.frameGeometry.w) = 1 + t.padding)) := by
  constructor
  · intro h
    cases d <;>
      simp [Shortcuts.pointInDirection, Shortcuts.pointAbove, Shortcuts.pointBelow,
        Shortcuts.pointLeft, Shortcuts.pointRight, h]
  · intro t ht hp
    cases d
    case above =>
      refine ⟨⟨w.frameGeometry.x + 1, w.frameGeometry.y - (1 + t.padding)⟩, ?_, rfl, by simp <;> linarith, by simp <;> ring⟩
      simp [Shortcuts.pointInDirection, Shortcuts.pointAbove, ht]
    case below =>
      refine ⟨⟨w.frameGeometry.x + 1, w.frameGeometry.y + (1 + w.frameGeometry.h + t.padding)⟩, ?_, rfl, by simp <;> linarith, by simp <;> ring⟩
      simp [Shortcuts.pointInDirection, Shortcuts.pointBelow, ht]
    case left =>
      refine ⟨⟨w.frameGeometry.x - (1 + t.padding), w.frameGeometry.y + 1⟩, ?_, rfl, by simp <;> linarith, by simp <;> ring⟩
      simp [Shortcuts.pointInDirection, Shortcuts.pointLeft, ht]
    case right =>
      refine ⟨⟨w.frameGeometry.x + (1 + w.frameGeometry.w + t.padding), w.frameGeometry.y + 1⟩, ?_, rfl, by simp <;> linarith, by simp <;> ring⟩
      simp [Shortcuts.pointInDirection, Shortcuts.pointRight, ht]

/-- Witness for C9 at a concrete window with padding 2, direction above. -/
theorem c9_probe_point_witness :
    ∃ p, Shortcuts.pointInDirection ⟨⟨0, 0, 10, 20⟩, some ⟨2⟩⟩ Shortcuts.Direction.above = some p ∧
      (p.x = (0 : ℚ) + 1 ∧ p.y < (0 : ℚ) ∧ (0 : ℚ) - p.y = 1 + 2) :=
  (c9_probe_point ⟨⟨0, 0, 10, 20⟩, some ⟨2⟩⟩ Shortcuts.Direction.above).2 ⟨2⟩ rfl (by norm_num)

/-! ### Claim C5 -/

/-- Claim C5: putWindowInTile with a live tile absent from the tile map
logs an error and performs no mutation: everything except the log is
returned exactly as it was, and no exception escapes. -/
theorem c5_putWindowInTile_unregistered (ops : EngineOps) (s : DriverState) (w kt : Nat)
    (d : Option UDirection) (h : alookup s.tiles kt = none) :
    putWindowInTile ops s w kt d =
      ({ s with logs := s.logs ++ ["Tile not registered"] }, none) := by
  unfold putWindowInTile
  rw [h]

/-- Witness for C5 at a concrete state with an empty tile map. -/
theorem c5_witness :
    alookup s0.tiles 5 = none ∧
    putWindowInTile okOps s0 3 5 none =
      ({ s0 with logs := s0.logs ++ ["Tile not registered"] }, none) :=
  ⟨rfl, c5_putWindowInTile_unregistered okOps s0 3 5 none rfl⟩

/-! ### Claim C7 -/

/-- Helper: on an untracked window, addWindow registers a fresh client
and touches neither the tile map nor the untiled list, in every engine
outcome. -/
theorem addWindow_fields (ops : EngineOps) (s : DriverState) (w : Nat)
    (h : hasKey s.clients w = false) :
    (addWindow ops s w).1.clients = biSet s.clients w s.nextClientId ∧
    (addWindow ops s w).1.tiles = s.tiles ∧
    (addWindow ops s w).1.untiledWindows = s.untiledWindows := by
  unfold addWindow
  rw [if_neg (by simp [h])]
  dsimp only
  repeat' split
  all_goals exact ⟨rfl, rfl, rfl⟩

/-- Helper: on a tracked window, removeWindow deletes the client map
entry, appends the window to the untiled list, and leaves the tile map
alone, in every engine outcome. -/
theorem removeWindow_fields (ops : EngineOps) (s : DriverState) (w c : Nat)
    (h : alookup s.clients w = some c) :
    (removeWindow ops s w).1.clients = biDelKey s.clients w ∧
    (removeWindow ops s w).1.tiles = s.tiles ∧
    (removeWindow ops s w).1.untiledWindows = s.untiledWindows ++ [w] := by
  unfold removeWindow
  rw [h]
  dsimp only
  repeat' split
  all_goals exact ⟨rfl, rfl, rfl⟩

/-- Claim C7: adding an untracked window and immediately removing it
leaves the tile map and the client map exactly as before the add, the
only driver-owned difference being the untiled list gaining the window.
The second hypothesis expresses that the Client object created by the
add is fresh (object identity: a newly allocated Client equals no
existing one). -/
theorem c7_add_remove_roundtrip (ops : EngineOps) (s : DriverState) (w : Nat)
    (h1 : hasKey s.clients w = false)
    (h2 : ∀ p ∈ s.clients, p.2 ≠ s.nextClientId) :
    (removeWindow ops (addWindow ops s w).1 w).1.tiles = s.tiles ∧
    (removeWindow ops (addWindow ops s w).1 w).1.clients = s.clients ∧
    (removeWindow ops (addWindow ops s w).1 w).1.untiledWindows =
      s.untiledWindows ++ [w] := by
  obtain ⟨hc, ht, hu⟩ := addWindow_fields ops s w h1
  have hlk : alookup (addWindow ops s w).1.clients w = some s.nextClientId := by
    rw [hc]; simp
  obtain ⟨hc2, ht2, hu2⟩ :=
    removeWindow_fields ops (addWindow ops s w).1 w s.nextClientId hlk
  refine ⟨?_, ?_, ?_⟩
  · rw [ht2, ht]
  · rw [hc2, hc, biDelKey_biSet _ _ _ ((hasKey_eq_false_iff _ _).1 h1) h2]
  · rw [hu2, hu]

/-- Witness for C7 at a concrete state. -/
theorem c7_witness :
    (removeWindow okOps (addWindow okOps s0 4).1 4).1.tiles = s0.tiles ∧
    (removeWindow okOps (addWindow okOps s0 4).1 4).1.clients = s0.clients ∧
    (removeWindow okOps (addWindow okOps s0 4).1 4).1.untiledWindows =
      s0.untiledWindows ++ [4] :=
  c7_add_remove_roundtrip okOps s0 4 (by decide) (by simp [s0])

/-! ### Claim C1 -/

/-- Engine whose placement call throws. -/
def boomOps : EngineOps where
  putClientInTile := fun _ _ _ _ => Except.error "engine placement failure"
  addClient := fun _ es => Except.ok es
  removeClient := fun _ es => Except.ok es
  buildLayout := fun es => Except.ok es
  regenerateLayout := fun es => Except.ok es

/-- State with the active-insertion policy, an active window, and that
window having a live tile registered in the tile map: the configuration
under which addWindow calls putClientInTile outside its try block. -/
def c1state : DriverState :=
  { engine := { es0 with insertionPoint := InsertionPoint.active },
    engineType := 0, tiles := [(7, 70)], clients := [], untiledWindows := [],
    kstore := [],
    windows := [(5, { frame := ⟨0, 0, 0, 0⟩, tile := some 7, minimized := false,
                      fullScreen := false, maxH := false, maxV := false })],
    windowExtensions := [], managedTiles := [], activeWindow := some 5,
    nextLiveId := 0, nextClientId := 0, maximizeSingle := false, logs := [] }

/-- Counterexample to claim C1 as stated: under the active-insertion
policy, an exception thrown by the placement call putClientInTile is NOT
caught by addWindow and escapes to the caller. -/
theorem c1_counterexample :
    (addWindow boomOps c1state 9).2 = some "engine placement failure" ∧
    (addWindow boomOps c1state 9).2 ≠ none := by
  refine ⟨rfl, ?_⟩
  intro hc
  rw [show (addWindow boomOps c1state 9).2 = some "engine placement failure" from rfl] at hc
  exact Option.noConfusion hc

/-- Claim C1 amended: for an untracked window, addWindow always leaves
the window registered in the client map; exceptions from the default
placement call (addClient) and from the engine layout call are caught
and do not propagate; the only exception that can escape is one thrown
by putClientInTile on the successful active-insertion path. -/
theorem c1_addWindow_amended (ops : EngineOps) (s : DriverState) (w : Nat)
    (h : hasKey s.clients w = false) :
    hasKey (addWindow ops s w).1.clients w = true ∧
    (activeTarget s = none → (addWindow ops s w).2 = none) ∧
    (∀ e, (addWindow ops s w).2 = some e →
      ∃ atId, activeTarget s = some atId ∧
        ops.putClientInTile s.nextClientId atId none s.engine = Except.error e) := by
  have hAT : activeTarget { s with clients := biSet s.clients w s.nextClientId,
                                   nextClientId := s.nextClientId + 1 } = activeTarget s := rfl
  unfold addWindow
  rw [if_neg (by simp [h])]
  dsimp only
  rw [hAT]
  cases hA : activeTarget s with
  | some atId =>
    dsimp only
    cases hPut : ops.putClientInTile s.nextClientId atId none s.engine with
    | error e =>
      dsimp only
      refine ⟨by simp, ?_, ?_⟩
      · intro hnone; exact Option.noConfusion hnone
      · intro e2 h2
        simp only [Option.some.injEq] at h2
        exact ⟨atId, rfl, by rw [h2] at hPut; exact hPut⟩
    | ok es =>
      dsimp only
      cases hBL : ops.buildLayout es with
      | error e2 => exact ⟨by simp, fun _ => rfl, fun e3 h3 => by simp at h3⟩
      | ok es2 => exact ⟨by simp, fun _ => rfl, fun e3 h3 => by simp at h3⟩
  | none =>
    dsimp only
    cases hAdd : ops.addClient s.nextClientId s.engine with
    | error e => exact ⟨by simp, fun _ => rfl, fun e3 h3 => by simp at h3⟩
    | ok es =>
      dsimp only
      cases hBL : ops.buildLayout es with
      | error e2 => exact ⟨by simp, fun _ => rfl, fun e3 h3 => by simp at h3⟩
      | ok es2 => exact ⟨by simp, fun _ => rfl, fun e3 h3 => by simp at h3⟩

/-- Witness for the amended C1 at a concrete state on the default path. -/
theorem c1_witness :
    hasKey (addWindow okOps s0 3).1.clients 3 = true ∧
    (activeTarget s0 = none → (addWindow okOps s0 3).2 = none) :=
  ⟨(c1_addWindow_amended okOps s0 3 (by decide)).1,
   (c1_addWindow_amended okOps s0 3 (by decide)).2.1⟩

/-! ### Claim C6 -/

/-- Encode an optional direction as a number (used by the recording
engine below to expose which direction it was handed). -/
def dirCode : Option UDirection → Nat
  | none => 0
  | some UDirection.above => 1
  | some UDirection.right => 2
  | some UDirection.below => 3
  | some UDirection.left => 4

/-- Recording engine: putClientInTile stores the code of the direction
it received in the internals field, everything else is a no-op. -/
def recOps : EngineOps where
  putClientInTile := fun _ _ d es => Except.ok { es with internals := dirCode d }
  addClient := fun _ es => Except.ok es
  removeClient := fun _ es => Except.ok es
  buildLayout := fun es => Except.ok es
  regenerateLayout := fun es => Except.ok es

/-- Claim C6: when a direction is supplied to putWindowInTile, the
direction handed to the engine placement call is the original rotated 90
degrees clockwise exactly when rotation is enabled in the engine
configuration and the capability bitset contains the rotation
translation flag; otherwise it is passed unchanged.  Shown against the
recording engine, which exposes the received direction. -/
theorem c6_rotation (s : DriverState) (w kt t : Nat) (d : UDirection)
    (h : alookup s.tiles kt = some t) :
    (putWindowInTile recOps s w kt (some d)).1.engine.internals =
      dirCode (some (if s.engine.rotateLayout = true ∧
            s.engine.engineCapability &&& EngineCapability.TranslateRotation =
              EngineCapability.TranslateRotation
          then rotateCw d else d)) := by
  unfold putWindowInTile
  rw [h]
  dsimp only
  by_cases hW : hasKey s.clients w = true
  · rw [if_pos hW]
    obtain ⟨c, hc⟩ : ∃ c, alookup s.clients w = some c := by
      cases hA : alookup s.clients w with
      | none => rw [hasKey, hA] at hW; exact absurd hW (by simp)
      | some c => exact ⟨c, rfl⟩
    rw [hc]
    by_cases hr : (s.engine.rotateLayout = true ∧
        s.engine.engineCapability &&& EngineCapability.TranslateRotation =
          EngineCapability.TranslateRotation)
    · rw [if_pos hr, if_pos hr]; rfl
    · rw [if_neg hr, if_neg hr]; rfl
  · rw [if_neg hW]
    rw [show alookup ({ s with clients := biSet s.clients w s.nextClientId,
                               nextClientId := s.nextClientId + 1 } : DriverState).clients w =
        some s.nextClientId from alookup_biSet_self s.clients w s.nextClientId]
    by_cases hr : (s.engine.rotateLayout = true ∧
        s.engine.engineCapability &&& EngineCapability.TranslateRotation =
          EngineCapability.TranslateRotation)
    · rw [if_pos hr, if_pos hr]; rfl
    · rw [if_neg hr, if_neg hr]; rfl

/-- State for the C6 witness: rotation enabled and the capability bit
present. -/
def c6state : DriverState :=
  { s0 with tiles := [(5, 50)],
            engine := { es0 with rotateLayout := true, engineCapability := 1 } }

/-- Witness for C6 at a concrete state where the rotation applies. -/
theorem c6_witness :
    alookup c6state.tiles 5 = some 50 ∧
    (putWindowInTile recOps c6state 3 5 (some UDirection.above)).1.engine.internals =
      dirCode (some (if c6state.engine.rotateLayout = true ∧
            c6state.engine.engineCapability &&& EngineCapability.TranslateRotation =
              EngineCapability.TranslateRotation
          then rotateCw UDirection.above else UDirection.above)) :=
  ⟨rfl, c6_rotation c6state 3 5 50 UDirection.above rfl⟩

/-! ### Lookup and update lemmas for the stores -/

theorem alookup_aupdate_self {α : Type} (m : List (Nat × α)) (k : Nat) (f : α → α) :
    alookup (aupdate m k f) k = (alookup m k).map f := by
  induction m with
  | nil => rfl
  | cons p rest ih =>
    by_cases hp : p.1 = k
    · simp [aupdate, alookup, hp]
    · simp [aupdate, alookup, hp, ih]

theorem alookup_aupdate_ne {α : Type} (m : List (Nat × α)) (k j : Nat) (f : α → α)
    (h : j ≠ k) : alookup (aupdate m k f) j = alookup m j := by
  induction m with
  | nil => rfl
  | cons p rest ih =>
    by_cases hp : p.1 = k
    · simp [aupdate, alookup, hp, Ne.symm h, ih]
    · simp [aupdate, alookup, hp, ih]

/-! ### Claim C3 -/

/-- Claim C3: with maximize-single configured, when the effective
abstract root (after descending through occupant-free single-child
wrappers) is an occupied leaf whose occupant maps to a tracked window,
buildLayout leaves the live root with zero child tiles, an empty tile
map, the window unassigned (tile null) and host-maximized, and returns
without an escaping exception. -/
theorem c3_maximize_single (s : DriverState) (rootId rr c w : Nat)
    (node : ATileData) (rd : KTileData) (wd : WindowData)
    (hms : s.maximizeSingle = true)
    (hdesc : descend s.engine (s.engine.atiles.length + 1) s.engine.rootId = rr)
    (hnode : alookup s.engine.atiles rr = some node)
    (hclient : node.client = some c)
    (hleaf : node.children = [])
    (hw : alookupInv s.clients c = some w)
    (hwd : alookup s.windows w = some wd)
    (hrd : alookup s.kstore rootId = some rd) :
    (buildLayoutD s rootId).2 = none ∧
    (buildLayoutD s rootId).1.tiles = [] ∧
    (alookup (buildLayoutD s rootId).1.kstore rootId).map (fun kd => kd.tiles) = some [] ∧
    alookup (buildLayoutD s rootId).1.windows w =
      some { wd with tile := none, maxH := true, maxV := true } := by
  unfold buildLayoutD buildPrep
  dsimp only [setKTile]
  rw [hdesc, hnode]
  dsimp only [Option.bind]
  rw [hclient, hms]
  dsimp only
  rw [hw]
  dsimp only [setWindow, fixSizing]
  refine ⟨rfl, rfl, ?_, ?_⟩
  · rw [alookup_aupdate_self, hrd]
    rfl
  · rw [alookup_aupdate_self, alookup_aupdate_self, hwd]
    rfl

/-- Concrete live root tile used by witnesses. -/
def kd0 : KTileData :=
  { tiles := [], parent := none, layoutDirection := 0,
    rel := ⟨0, 0, 100, 50⟩, abs := ⟨0, 0, 100, 50⟩, padding := 0 }

/-- Concrete window data used by witnesses. -/
def wd0 : WindowData :=
  { frame := ⟨0, 0, 40, 40⟩, tile := some 0, minimized := false,
    fullScreen := false, maxH := false, maxV := false }

/-- Concrete state for the C3 witness: maximize-single enabled, the
abstract root an occupied leaf whose client 1 maps to window 4. -/
def c3state : DriverState :=
  { engine := { es0 with
      atiles := [(10, { children := [], client := some 1, layoutDirection := 0 })],
      rootId := 10 },
    engineType := 0, tiles := [(0, 10)], clients := [(4, 1)], untiledWindows := [],
    kstore := [(0, kd0)], windows := [(4, wd0)], windowExtensions := [],
    managedTiles := [], activeWindow := none, nextLiveId := 1, nextClientId := 2,
    maximizeSingle := true, logs := [] }

/-- Witness for C3 at the concrete state. -/
theorem c3_witness :
    (buildLayoutD c3state 0).2 = none ∧
    (buildLayoutD c3state 0).1.tiles = [] ∧
    (alookup (buildLayoutD c3state 0).1.kstore 0).map (fun kd => kd.tiles) = some [] ∧
    alookup (buildLayoutD c3state 0).1.windows 4 =
      some { wd0 with tile := none, maxH := true, maxV := true } :=
  c3_maximize_single c3state 0 10 1 4
    { children := [], client := some 1, layoutDirection := 0 } kd0 wd0
    rfl rfl rfl rfl rfl rfl rfl rfl

/-! ### Claim C10 -/

/-- Concrete state for C10: maximize-single enabled, abstract root an
occupied leaf whose occupant client 9 has no client-map entry, while the
engine also reports client 2 as untiled and client 2 maps to window 4. -/
def c10state : DriverState :=
  { engine := { es0 with
      atiles := [(10, { children := [], client := some 9, layoutDirection := 0 })],
      rootId := 10, untiledClients := [2] },
    engineType := 0, tiles := [(0, 10)], clients := [(4, 2)], untiledWindows := [],
    kstore := [(0, kd0)], windows := [], windowExtensions := [], managedTiles := [],
    activeWindow := none, nextLiveId := 1, nextClientId := 3,
    maximizeSingle := true, logs := [] }

/-- Counterexample to claim C10 as stated: the untracked list does NOT
end empty — it has already been recomputed from the engine set of
unplaced clients before the silent return, and here ends as [4]. -/
theorem c10_counterexample :
    (buildLayoutD c10state 0).1.untiledWindows = [4] ∧
    (buildLayoutD c10state 0).1.untiledWindows ≠ [] := by
  refine ⟨rfl, ?_⟩
  intro hc
  rw [show (buildLayoutD c10state 0).1.untiledWindows = [4] from rfl] at hc
  exact List.noConfusion hc

/-- Claim C10 amended: with maximize-single configured and the effective
root an occupied leaf whose occupant has no client-map entry,
buildLayout returns silently (no log entry, no exception) after having
destroyed every live child of the root and cleared the tile map; no
window is touched (none maximized, none assigned); the untracked list is
not empty in general but holds exactly the windows of the engine
currently-unplaced clients, as recomputed before the early return. -/
theorem c10_silent_missing_client (s : DriverState) (rootId rr c : Nat)
    (node : ATileData) (rd : KTileData)
    (hms : s.maximizeSingle = true)
    (hdesc : descend s.engine (s.engine.atiles.length + 1) s.engine.rootId = rr)
    (hnode : alookup s.engine.atiles rr = some node)
    (hclient : node.client = some c)
    (hw : alookupInv s.clients c = none)
    (hrd : alookup s.kstore rootId = some rd) :
    (buildLayoutD s rootId).2 = none ∧
    (buildLayoutD s rootId).1.logs = s.logs ∧
    (buildLayoutD s rootId).1.tiles = [] ∧
    (buildLayoutD s rootId).1.windows = s.windows ∧
    (alookup (buildLayoutD s rootId).1.kstore rootId).map (fun kd => kd.tiles) = some [] ∧
    (buildLayoutD s rootId).1.untiledWindows =
      s.engine.untiledClients.filterMap (fun cc => alookupInv s.clients cc) := by
  unfold buildLayoutD buildPrep
  dsimp only [setKTile]
  rw [hdesc, hnode]
  dsimp only [Option.bind]
  rw [hclient, hms]
  dsimp only
  rw [hw]
  refine ⟨rfl, rfl, rfl, rfl, ?_, rfl⟩
  rw [alookup_aupdate_self, hrd]
  rfl

/-- Witness for the amended C10 at the concrete state. -/
theorem c10_witness :
    (buildLayoutD c10state 0).2 = none ∧
    (buildLayoutD c10state 0).1.logs = c10state.logs ∧
    (buildLayoutD c10state 0).1.tiles = [] ∧
    (buildLayoutD c10state 0).1.windows = c10state.windows ∧
    (alookup (buildLayoutD c10state 0).1.kstore 0).map (fun kd => kd.tiles) = some [] ∧
    (buildLayoutD c10state 0).1.untiledWindows =
      c10state.engine.untiledClients.filterMap (fun cc => alookupInv c10state.clients cc) :=
  c10_silent_missing_client c10state 0 10 9
    { children := [], client := some 9, layoutDirection := 0 } kd0
    rfl rfl rfl rfl rfl rfl

/-! ### Claim C2 -/

theorem list_range_two : List.range 2 = [0, 1] := rfl

/-- Family of driver states for C2: two tracked windows 1 and 2 (clients
1 and 2), the abstract engine root 10 a horizontal node with the two
occupied leaves 11 and 12, a single live root tile 0 of symbolic
geometry; everything not pinned down by the scenario (leaf directions,
extension flags, maximize-single, unplaced clients, active window, log)
stays a parameter. -/
def c2state (gx gy gw gh pad : ℚ) (ld1 ld2 : Nat) (m1 m2 mS : Bool)
    (l1 l2 : Option GPoint) (fA fB : QRect) (tA tB : Option Nat)
    (uc : List Nat) (aw : Option Nat) (lg : List String) : DriverState :=
  { engine := { es0 with
      atiles := [(10, { children := [11, 12], client := none, layoutDirection := 1 }),
                 (11, { children := [], client := some 1, layoutDirection := ld1 }),
                 (12, { children := [], client := some 2, layoutDirection := ld2 })],
      rootId := 10, untiledClients := uc },
    engineType := 0, tiles := [], clients := [(1, 1), (2, 2)], untiledWindows := [],
    kstore := [(0, { tiles := [], parent := none, layoutDirection := 0,
                     rel := ⟨gx, gy, gw, gh⟩, abs := ⟨gx, gy, gw, gh⟩, padding := pad })],
    windows := [(1, { frame := fA, tile := tA, minimized := false, fullScreen := false,
                      maxH := false, maxV := false }),
                (2, { frame := fB, tile := tB, minimized := false, fullScreen := false,
                      maxH := false, maxV := false })],
    windowExtensions := [(1, ⟨m1, l1⟩), (2, ⟨m2, l2⟩)],
    managedTiles := [], activeWindow := aw, nextLiveId := 1, nextClientId := 3,
    maximizeSingle := mS, logs := lg }

/-- The buildLayout run of the C2 scenario. -/
def c2run (gx gy gw gh pad : ℚ) (ld1 ld2 : Nat) (m1 m2 mS : Bool)
    (l1 l2 : Option GPoint) (fA fB : QRect) (tA tB : Option Nat)
    (uc : List Nat) (aw : Option Nat) (lg : List String) :
    DriverState × Option String :=
  buildLayoutD (c2state gx gy gw gh pad ld1 ld2 m1 m2 mS l1 l2 fA fB tA tB uc aw lg) 0

/-- Claim C2: in every buildLayout run of the two-window scenario (the
effective abstract root horizontal with exactly two occupied leaves
whose occupants map to tracked windows), the live root ends with exactly
the two child tiles 1 and 2, each child has relative width equal to half
the root width (fixSizing being a stub, this is also the final state),
window 1 is assigned to live child 1 and window 2 to live child 2, and
no exception escapes. -/
theorem c2_two_windows_half_width (gx gy gw gh pad : ℚ) (ld1 ld2 : Nat)
    (m1 m2 mS : Bool) (l1 l2 : Option GPoint) (fA fB : QRect) (tA tB : Option Nat)
    (uc : List Nat) (aw : Option Nat) (lg : List String) :
    (c2run gx gy gw gh pad ld1 ld2 m1 m2 mS l1 l2 fA fB tA tB uc aw lg).2 = none ∧
    (alookup (c2run gx gy gw gh pad ld1 ld2 m1 m2 mS l1 l2 fA fB tA tB uc aw lg).1.kstore 0).map
      (fun kd => kd.tiles) = some [1, 2] ∧
    (alookup (c2run gx gy gw gh pad ld1 ld2 m1 m2 mS l1 l2 fA fB tA tB uc aw lg).1.kstore 1).map
      (fun kd => kd.rel.w) = some (gw / 2) ∧
    (alookup (c2run gx gy gw gh pad ld1 ld2 m1 m2 mS l1 l2 fA fB tA tB uc aw lg).1.kstore 2).map
      (fun kd => kd.rel.w) = some (gw / 2) ∧
    (alookup (c2run gx gy gw gh pad ld1 ld2 m1 m2 mS l1 l2 fA fB tA tB uc aw lg).1.windows 1).map
      (fun wd => wd.tile) = some (some 1) ∧
    (alookup (c2run gx gy gw gh pad ld1 ld2 m1 m2 mS l1 l2 fA fB tA tB uc aw lg).1.windows 2).map
      (fun wd => wd.tile) = some (some 2) := by
  cases m1 <;> cases m2 <;>
    simp [c2run, c2state, es0, buildLayoutD, buildPrep, bfsBuild, bfsPre, splitLoop, splitStepA,
      splitStepB, occupantStep, descend, setKTile, setWindow, splitTile, ksplit,
      splitRect, aupdate, alookup, alookupInv, biSet, insertAfter, fixSizing,
      centerOfRect, list_range_two, Nat.cast_ofNat]

/-! ### Claim C8: both identity maps stay injective in both directions -/

/-- A bidirectional map is injective both ways: no key twice, no value
twice. -/
def BiInj (m : List (Nat × Nat)) : Prop :=
  (m.map Prod.fst).Nodup ∧ (m.map Prod.snd).Nodup

/-- Both driver identity maps are injective both ways. -/
def MapsInj (s : DriverState) : Prop := BiInj s.tiles ∧ BiInj s.clients

theorem biInj_nil : BiInj [] := ⟨List.nodup_nil, List.nodup_nil⟩

theorem biInj_filter (m : List (Nat × Nat)) (q : Nat × Nat → Bool)
    (h : BiInj m) : BiInj (m.filter q) :=
  ⟨List.Nodup.sublist ((List.filter_sublist m).map Prod.fst) h.1,
   List.Nodup.sublist ((List.filter_sublist m).map Prod.snd) h.2⟩

theorem biInj_biSet (m : List (Nat × Nat)) (k v : Nat) (h : BiInj m) :
    BiInj (biSet m k v) := by
  have hf := biInj_filter m (fun p => decide (p.1 ≠ k) && decide (p.2 ≠ v)) h
  constructor
  · refine List.nodup_cons.2 ⟨?_, hf.1⟩
    intro hk
    obtain ⟨p, hp, hpk⟩ := List.mem_map.1 hk
    have := (List.mem_filter.1 hp).2
    simp only [Bool.and_eq_true, decide_eq_true_eq] at this
    exact this.1 hpk
  · refine List.nodup_cons.2 ⟨?_, hf.2⟩
    intro hv
    obtain ⟨p, hp, hpv⟩ := List.mem_map.1 hv
    have := (List.mem_filter.1 hp).2
    simp only [Bool.and_eq_true, decide_eq_true_eq] at this
    exact this.2 hpv

theorem biInj_biDelKey (m : List (Nat × Nat)) (k : Nat) (h : BiInj m) :
    BiInj (biDelKey m k) := biInj_filter m _ h

theorem biInj_biDelVal (m : List (Nat × Nat)) (v : Nat) (h : BiInj m) :
    BiInj (biDelVal m v) := biInj_filter m _ h

/-- occupantStep never touches the identity maps. -/
theorem occupantStep_maps (s : DriverState) (node : ATileData) (kt : Nat) :
    (occupantStep s node kt).1.tiles = s.tiles ∧
    (occupantStep s node kt).1.clients = s.clients := by
  unfold occupantStep
  dsimp only [setWindow]
  repeat' split
  all_goals exact ⟨rfl, rfl⟩


/-- splitLoop only changes the tile map through biSet, and never the
client map. -/
theorem splitStepA_maps (s : DriverState) (kt dir i : Nat) :
    (splitStepA s kt dir i).1.tiles = s.tiles ∧
    (splitStepA s kt dir i).1.clients = s.clients := by
  unfold splitStepA
  dsimp only [splitTile]
  repeat' split
  all_goals exact ⟨rfl, rfl⟩

theorem splitStepB_maps (s : DriverState) (kt tilesLen : Nat) (horizontal : Bool) (i : Nat) :
    (splitStepB s kt tilesLen horizontal i).1.tiles = s.tiles ∧
    (splitStepB s kt tilesLen horizontal i).1.clients = s.clients := by
  unfold splitStepB
  dsimp only [setKTile]
  repeat' split
  all_goals exact ⟨rfl, rfl⟩

theorem splitLoop_maps (kt : Nat) (achildren : List Nat) (tilesLen dir : Nat)
    (horizontal : Bool) (idxs : List Nat) :
    ∀ s : DriverState, BiInj s.tiles →
      BiInj (splitLoop kt achildren tilesLen dir horizontal idxs s).1.tiles ∧
      (splitLoop kt achildren tilesLen dir horizontal idxs s).1.clients = s.clients := by
  induction idxs with
  | nil => intro s h; exact ⟨h, rfl⟩
  | cons i rest ih =>
    intro s h
    obtain ⟨hA1, hA2⟩ := splitStepA_maps s kt dir i
    unfold splitLoop
    rcases hE1 : splitStepA s kt dir i with ⟨s1, e1⟩
    rw [hE1] at hA1 hA2
    cases e1 with
    | some e => exact ⟨by rw [hA1]; exact h, hA2⟩
    | none =>
      dsimp only
      obtain ⟨hB1, hB2⟩ := splitStepB_maps s1 kt tilesLen horizontal i
      rcases hE2 : splitStepB s1 kt tilesLen horizontal i with ⟨s2, e2⟩
      rw [hE2] at hB1 hB2
      cases e2 with
      | some e => exact ⟨by rw [hB1, hA1]; exact h, by rw [hB2, hA2]⟩
      | none =>
        dsimp only
        cases hL : (alookup s2.kstore kt).bind (fun kd => kd.tiles.get? i) with
        | none => exact ⟨by rw [hB1, hA1]; exact h, by rw [hB2, hA2]⟩
        | some kci =>
          cases hM : achildren.get? i with
          | none => exact ⟨by rw [hB1, hA1]; exact h, by rw [hB2, hA2]⟩
          | some aci =>
            dsimp only
            have h2 : BiInj s2.tiles := by rw [hB1, hA1]; exact h
            obtain ⟨r1, r2⟩ := ih { s2 with tiles := biSet s2.tiles kci aci }
              (biInj_biSet _ _ _ h2)
            exact ⟨r1, by rw [r2]; dsimp only; rw [hB2, hA2]⟩

/-- bfsPre never touches the identity maps. -/
theorem bfsPre_maps (s : DriverState) (kt ld : Nat) :
    (bfsPre s kt ld).tiles = s.tiles ∧ (bfsPre s kt ld).clients = s.clients :=
  ⟨rfl, rfl⟩


/-- bfsBuild keeps the tile map injective both ways (every mutation goes
through biSet) and never touches the client map. -/
theorem bfsBuild_maps : ∀ (fuel : Nat) (queue : List Nat) (s : DriverState),
    BiInj s.tiles →
    BiInj (bfsBuild fuel s queue).1.tiles ∧
    (bfsBuild fuel s queue).1.clients = s.clients := by
  intro fuel
  induction fuel with
  | zero => intro queue s h; cases queue <;> exact ⟨h, rfl⟩
  | succ n ih =>
    intro queue s h
    cases queue with
    | nil => unfold bfsBuild; exact ⟨h, rfl⟩
    | cons t rest =>
      unfold bfsBuild
      cases hkt : alookupInv s.tiles t with
      | none => exact ⟨h, rfl⟩
      | some kt =>
        dsimp only
        cases hnode : alookup s.engine.atiles t with
        | none => exact ⟨h, rfl⟩
        | some node =>
          dsimp only
          have hpre : BiInj (bfsPre s kt node.layoutDirection).tiles := h
          by_cases hlen : 1 < node.children.length
          · rw [if_pos hlen]
            obtain ⟨hS1, hS2⟩ := splitLoop_maps kt node.children node.children.length
              node.layoutDirection (decide (node.layoutDirection = 1))
              (List.range node.children.length) (bfsPre s kt node.layoutDirection) hpre
            rcases hE : splitLoop kt node.children node.children.length
                node.layoutDirection (decide (node.layoutDirection = 1))
                (List.range node.children.length) (bfsPre s kt node.layoutDirection)
              with ⟨s1, e1⟩
            rw [hE] at hS1 hS2
            dsimp only at hS1 hS2
            cases e1 with
            | some e => exact ⟨hS1, hS2.trans rfl⟩
            | none =>
              dsimp only
              obtain ⟨ho1, ho2⟩ := occupantStep_maps s1 node kt
              rcases hO : occupantStep s1 node kt with ⟨s2, code⟩
              rw [hO] at ho1 ho2
              dsimp only at ho1 ho2
              cases code with
              | zero =>
                obtain ⟨r1, r2⟩ := ih (rest ++ node.children) s2
                  (by have hx := hS1; rw [← ho1] at hx; exact hx)
                exact ⟨r1, r2.trans (ho2.trans (hS2.trans rfl))⟩
              | succ m =>
                cases m with
                | zero =>
                  exact ⟨by have hx := hS1; rw [← ho1] at hx; exact hx,
                         ho2.trans (hS2.trans rfl)⟩
                | succ k =>
                  exact ⟨by have hx := hS1; rw [← ho1] at hx; exact hx,
                         ho2.trans (hS2.trans rfl)⟩
          · rw [if_neg hlen]
            cases hch : node.children with
            | nil =>
              dsimp only
              obtain ⟨ho1, ho2⟩ := occupantStep_maps (bfsPre s kt node.layoutDirection) node kt
              rcases hO : occupantStep (bfsPre s kt node.layoutDirection) node kt with ⟨s2, code⟩
              rw [hO] at ho1 ho2
              dsimp only at ho1 ho2
              cases code with
              | zero =>
                obtain ⟨r1, r2⟩ := ih rest s2
                  (by have hx := hpre; rw [← ho1] at hx; exact hx)
                exact ⟨r1, r2.trans (ho2.trans rfl)⟩
              | succ m =>
                cases m with
                | zero =>
                  exact ⟨by have hx := hpre; rw [← ho1] at hx; exact hx,
                         ho2.trans rfl⟩
                | succ k =>
                  exact ⟨by have hx := hpre; rw [← ho1] at hx; exact hx,
                         ho2.trans rfl⟩
            | cons c cs =>
              cases cs with
              | nil =>
                dsimp only
                have hset : BiInj (biSet (bfsPre s kt node.layoutDirection).tiles kt c) :=
                  biInj_biSet _ _ _ hpre
                obtain ⟨ho1, ho2⟩ := occupantStep_maps
                  { bfsPre s kt node.layoutDirection with
                      tiles := biSet (bfsPre s kt node.layoutDirection).tiles kt c } node kt
                rcases hO : occupantStep
                    { bfsPre s kt node.layoutDirection with
                        tiles := biSet (bfsPre s kt node.layoutDirection).tiles kt c } node kt
                  with ⟨s2, code⟩
                rw [hO] at ho1 ho2
                dsimp only at ho1 ho2
                cases code with
                | zero =>
                  obtain ⟨r1, r2⟩ := ih (rest ++ [c]) s2
                    (by have hx := hset; rw [← ho1] at hx; exact hx)
                  exact ⟨r1, r2.trans (ho2.trans rfl)⟩
                | succ m =>
                  cases m with
                  | zero =>
                    exact ⟨by have hx := hset; rw [← ho1] at hx; exact hx,
                           ho2.trans rfl⟩
                  | succ k =>
                    exact ⟨by have hx := hset; rw [← ho1] at hx; exact hx,
                           ho2.trans rfl⟩
              | cons c2 cs2 =>
                dsimp only
                obtain ⟨ho1, ho2⟩ := occupantStep_maps (bfsPre s kt node.layoutDirection) node kt
                rcases hO : occupantStep (bfsPre s kt node.layoutDirection) node kt with ⟨s2, code⟩
                rw [hO] at ho1 ho2
                dsimp only at ho1 ho2
                cases code with
                | zero =>
                  obtain ⟨r1, r2⟩ := ih rest s2
                    (by have hx := hpre; rw [← ho1] at hx; exact hx)
                  exact ⟨r1, r2.trans (ho2.trans rfl)⟩
                | succ m =>
                  cases m with
                  | zero =>
                    exact ⟨by have hx := hpre; rw [← ho1] at hx; exact hx,
                           ho2.trans rfl⟩
                  | succ k =>
                    exact ⟨by have hx := hpre; rw [← ho1] at hx; exact hx,
                           ho2.trans rfl⟩

theorem buildPrep_maps (s : DriverState) (rootId : Nat) :
    (buildPrep s rootId).tiles = [] ∧ (buildPrep s rootId).clients = s.clients :=
  ⟨rfl, rfl⟩

theorem addWindow_mapsInj (ops : EngineOps) (s : DriverState) (w : Nat)
    (h : MapsInj s) : MapsInj (addWindow ops s w).1 := by
  by_cases hK : hasKey s.clients w = true
  · unfold addWindow; rw [if_pos hK]; exact h
  · have hK2 : hasKey s.clients w = false := by
      cases hB : hasKey s.clients w
      · rfl
      · exact absurd hB hK
    obtain ⟨hc, ht, hu⟩ := addWindow_fields ops s w hK2
    exact ⟨by rw [ht]; exact h.1, by rw [hc]; exact biInj_biSet _ _ _ h.2⟩

theorem removeWindow_mapsInj (ops : EngineOps) (s : DriverState) (w : Nat)
    (h : MapsInj s) : MapsInj (removeWindow ops s w).1 := by
  cases hC : alookup s.clients w with
  | none => unfold removeWindow; rw [hC]; exact h
  | some c =>
    obtain ⟨hc, ht, hu⟩ := removeWindow_fields ops s w c hC
    exact ⟨by rw [ht]; exact h.1, by rw [hc]; exact biInj_biDelKey _ _ h.2⟩

theorem putWindowInTile_mapsInj (ops : EngineOps) (s : DriverState) (w kt : Nat)
    (d : Option UDirection) (h : MapsInj s) : MapsInj (putWindowInTile ops s w kt d).1 := by
  unfold putWindowInTile
  cases hT : alookup s.tiles kt with
  | none => exact h
  | some t =>
    dsimp only
    by_cases hK : hasKey s.clients w = true
    · rw [if_pos hK]
      cases hC : alookup s.clients w with
      | none => exact h
      | some c =>
        dsimp only
        repeat' split
        all_goals exact h
    · rw [if_neg hK]
      dsimp only
      rw [alookup_biSet_self]
      dsimp only
      have h2 : MapsInj { s with clients := biSet s.clients w s.nextClientId,
                                 nextClientId := s.nextClientId + 1 } :=
        ⟨h.1, biInj_biSet _ _ _ h.2⟩
      repeat' split
      all_goals exact h2

theorem switchEngine_mapsInj (ops : EngineOps) (s : DriverState) (ne : EngineState)
    (ty : Nat) (h : MapsInj s) : MapsInj (switchEngine ops s ne ty).1 := by
  unfold switchEngine
  dsimp only
  repeat' split
  all_goals exact h

theorem buildLayoutD_mapsInj (s : DriverState) (rootId : Nat) (h : MapsInj s) :
    MapsInj (buildLayoutD s rootId).1 := by
  have hpt : BiInj (buildPrep s rootId).tiles := by
    rw [(buildPrep_maps s rootId).1]; exact biInj_nil
  have hpc : BiInj (buildPrep s rootId).clients := by
    rw [(buildPrep_maps s rootId).2]; exact h.2
  have helse : ∀ (q : List Nat) (s2 : DriverState), BiInj s2.tiles →
      s2.clients = (buildPrep s rootId).clients →
      MapsInj (fixSizing (bfsBuild ((buildPrep s rootId).engine.atiles.length + 1) s2 q).1) := by
    intro q s2 h2t h2c
    obtain ⟨b1, b2⟩ := bfsBuild_maps ((buildPrep s rootId).engine.atiles.length + 1) q s2 h2t
    exact ⟨b1, by dsimp only [fixSizing]; rw [b2, h2c]; exact hpc⟩
  unfold buildLayoutD
  dsimp only
  cases hrc : (alookup (buildPrep s rootId).engine.atiles
      (descend (buildPrep s rootId).engine ((buildPrep s rootId).engine.atiles.length + 1)
        (buildPrep s rootId).engine.rootId)).bind (fun d => d.client) with
  | none => exact helse _ _ (biInj_biSet _ _ _ hpt) rfl
  | some c =>
    cases hms : (buildPrep s rootId).maximizeSingle with
    | false => exact helse _ _ (biInj_biSet _ _ _ hpt) rfl
    | true =>
      dsimp only
      cases hw : alookupInv (buildPrep s rootId).clients c with
      | none => exact ⟨hpt, hpc⟩
      | some w2 => exact ⟨hpt, hpc⟩

theorem regenRemoveStep_mapsInj (s : DriverState) (x : Nat) (h : MapsInj s) :
    MapsInj (regenRemoveStep s x) := by
  unfold regenRemoveStep
  split
  · exact h
  · exact ⟨biInj_biDelVal _ _ h.1, h.2⟩

theorem regenCreateStep_mapsInj (t : Nat) (s : DriverState) (ck : Nat) (h : MapsInj s) :
    MapsInj (regenCreateStep t s ck) := by
  unfold regenCreateStep
  split
  · exact h
  · exact ⟨biInj_biSet _ _ _ h.1, h.2⟩

theorem foldl_mapsInj {β : Type} (f : DriverState → β → DriverState) (l : List β)
    (hf : ∀ x b, MapsInj x → MapsInj (f x b)) :
    ∀ x, MapsInj x → MapsInj (l.foldl f x) := by
  induction l with
  | nil => intro x hx; exact hx
  | cons b rest ih => intro x hx; exact ih _ (hf x b hx)

theorem regenProcessTile_mapsInj (s : DriverState) (kt : Nat) (h : MapsInj s) :
    MapsInj (regenProcessTile s kt).1 := by
  unfold regenProcessTile
  cases hT : alookup s.tiles kt with
  | none => exact h
  | some t =>
    dsimp only
    split
    · exact foldl_mapsInj _ _ (fun x b hx => regenCreateStep_mapsInj t x b hx) _
        (foldl_mapsInj _ _ (fun x b hx => regenRemoveStep_mapsInj x b hx) _ h)
    · exact h

theorem regenBfs_mapsInj : ∀ (fuel : Nat) (queue : List Nat) (s : DriverState),
    MapsInj s → MapsInj (regenBfs fuel s queue) := by
  intro fuel
  induction fuel with
  | zero => intro q s h; cases q <;> exact h
  | succ n ih =>
    intro q s h
    cases q with
    | nil => exact h
    | cons kt rest =>
      unfold regenBfs
      dsimp only
      exact ih _ _ (regenProcessTile_mapsInj s kt h)

theorem regenerateLayout_mapsInj (ops : EngineOps) (s : DriverState) (rootId : Nat)
    (h : MapsInj s) : MapsInj (regenerateLayout ops s rootId).1 := by
  unfold regenerateLayout
  dsimp only
  have hb := regenBfs_mapsInj (s.kstore.length + 1) [rootId] s h
  repeat' split
  all_goals exact hb

/-- Claim C8: starting from any state whose two identity maps are
injective in both directions, every public driver operation (addWindow,
removeWindow, putWindowInTile, buildLayout, regenerateLayout,
switchEngine) leaves both maps injective in both directions — including
across the single-child collapse of buildLayout, whose re-mapping goes
through the conflict-dropping biSet. -/
theorem c8_maps_injective (ops : EngineOps) (s : DriverState) (w kt : Nat)
    (d : Option UDirection) (ne : EngineState) (ty rootId : Nat)
    (h : MapsInj s) :
    MapsInj (addWindow ops s w).1 ∧
    MapsInj (removeWindow ops s w).1 ∧
    MapsInj (putWindowInTile ops s w kt d).1 ∧
    MapsInj (buildLayoutD s rootId).1 ∧
    MapsInj (regenerateLayout ops s rootId).1 ∧
    MapsInj (switchEngine ops s ne ty).1 :=
  ⟨addWindow_mapsInj ops s w h, removeWindow_mapsInj ops s w h,
   putWindowInTile_mapsInj ops s w kt d h, buildLayoutD_mapsInj s rootId h,
   regenerateLayout_mapsInj ops s rootId h, switchEngine_mapsInj ops s ne ty h⟩

/-- Witness for C8 at a concrete injective state. -/
theorem c8_witness :
    MapsInj (addWindow okOps c3state 7).1 ∧
    MapsInj (removeWindow okOps c3state 7).1 ∧
    MapsInj (putWindowInTile okOps c3state 7 0 none).1 ∧
    MapsInj (buildLayoutD c3state 0).1 ∧
    MapsInj (regenerateLayout okOps c3state 0).1 ∧
    MapsInj (switchEngine okOps c3state es0 0).1 :=
  c8_maps_injective okOps c3state 7 0 none es0 0 0
    ⟨⟨by decide, by decide⟩, ⟨by decide, by decide⟩⟩

/-! ### Claim C4: structure synchronization in regenerateLayout -/

theorem alookupInv_eq_none_iff (m : List (Nat × Nat)) (v : Nat) :
    alookupInv m v = none ↔ ∀ p ∈ m, p.2 ≠ v := by
  induction m with
  | nil => simp [alookupInv]
  | cons p rest ih =>
    by_cases hp : p.2 = v <;> simp [alookupInv, hp, ih]

theorem biDelVal_eq_self (m : List (Nat × Nat)) (v : Nat)
    (h : alookupInv m v = none) : biDelVal m v = m :=
  List.filter_eq_self.2 (fun p hp => by
    simp [(alookupInv_eq_none_iff m v).1 h p hp])

theorem alookup_removeChildA_self (m : List (Nat × ATileData)) (x : Nat) :
    alookup (removeChildA m x) x = none := by
  rw [alookup_eq_none_iff]
  intro p hp
  obtain ⟨q, hq, hqe⟩ := List.mem_map.1 hp
  have := (List.mem_filter.1 hq).2
  simp only [decide_eq_true_eq] at this
  rw [← hqe]
  exact this

theorem alookup_removeChildA_none (m : List (Nat × ATileData)) (x y : Nat)
    (h : alookup m y = none) : alookup (removeChildA m x) y = none := by
  rw [alookup_eq_none_iff]
  intro p hp
  obtain ⟨q, hq, hqe⟩ := List.mem_map.1 hp
  have hqm := (List.mem_filter.1 hq).1
  rw [← hqe]
  exact (alookup_eq_none_iff m y).1 h q hqm

theorem alookup_aupdate_none {α : Type} (m : List (Nat × α)) (k j : Nat) (f : α → α)
    (h : alookup m j = none) : alookup (aupdate m k f) j = none := by
  by_cases hj : j = k
  · subst hj; rw [alookup_aupdate_self, h]; rfl
  · rw [alookup_aupdate_ne _ _ _ _ hj]; exact h

/-- regenRemoveStep never changes the tile map: the inverse deletion it
performs is conditioned on the binding being absent, hence a no-op. -/
theorem regenRemoveStep_tiles (s : DriverState) (x : Nat) :
    (regenRemoveStep s x).tiles = s.tiles := by
  unfold regenRemoveStep
  cases hI : alookupInv s.tiles x with
  | some k => rfl
  | none => exact biDelVal_eq_self s.tiles x hI

theorem regenRemoveStep_frame (s : DriverState) (x : Nat) :
    (regenRemoveStep s x).kstore = s.kstore ∧
    (regenRemoveStep s x).engine.nextAtId = s.engine.nextAtId := by
  unfold regenRemoveStep
  cases alookupInv s.tiles x <;> exact ⟨rfl, rfl⟩

theorem regenRemoveStep_atiles_none (s : DriverState) (b y : Nat)
    (h : alookup s.engine.atiles y = none) :
    alookup (regenRemoveStep s b).engine.atiles y = none := by
  unfold regenRemoveStep
  cases alookupInv s.tiles b with
  | some k => exact h
  | none => exact alookup_removeChildA_none _ _ _ h

theorem fold1_preserves_none : ∀ (xs : List Nat) (s1 : DriverState) (y : Nat),
    alookup s1.engine.atiles y = none →
    alookup ((xs.foldl regenRemoveStep s1).engine.atiles) y = none := by
  intro xs
  induction xs with
  | nil => intro s1 y h; exact h
  | cons b rest ih => intro s1 y h; exact ih _ y (regenRemoveStep_atiles_none s1 b y h)

theorem fold1_tiles : ∀ (xs : List Nat) (s1 : DriverState),
    ((xs.foldl regenRemoveStep s1)).tiles = s1.tiles := by
  intro xs
  induction xs with
  | nil => intro s1; rfl
  | cons b rest ih =>
    intro s1
    rw [List.foldl_cons, ih, regenRemoveStep_tiles]

theorem fold1_frame : ∀ (xs : List Nat) (s1 : DriverState),
    ((xs.foldl regenRemoveStep s1)).kstore = s1.kstore ∧
    ((xs.foldl regenRemoveStep s1)).engine.nextAtId = s1.engine.nextAtId := by
  intro xs
  induction xs with
  | nil => intro s1; exact ⟨rfl, rfl⟩
  | cons b rest ih =>
    intro s1
    obtain ⟨h1, h2⟩ := ih (regenRemoveStep s1 b)
    obtain ⟨g1, g2⟩ := regenRemoveStep_frame s1 b
    exact ⟨h1.trans g1, h2.trans g2⟩

theorem fold1_removes : ∀ (xs : List Nat) (s1 : DriverState) (x : Nat),
    x ∈ xs → alookupInv s1.tiles x = none →
    alookup ((xs.foldl regenRemoveStep s1).engine.atiles) x = none := by
  intro xs
  induction xs with
  | nil => intro s1 x hx; cases hx
  | cons b rest ih =>
    intro s1 x hx hnone
    rcases List.mem_cons.1 hx with rfl | hx2
    · rw [List.foldl_cons]
      have h1 : alookup ((regenRemoveStep s1 x).engine.atiles) x = none := by
        unfold regenRemoveStep
        rw [hnone]
        exact alookup_removeChildA_self _ x
      exact fold1_preserves_none rest _ x h1
    · rw [List.foldl_cons]
      exact ih (regenRemoveStep s1 b) x hx2
        (by rw [regenRemoveStep_tiles]; exact hnone)

theorem alookup_filter_of_alookup {α : Type} (m : List (Nat × α)) (q : Nat × α → Bool)
    (y : Nat) (v : α) (h : alookup m y = some v) (hq : q (y, v) = true) :
    alookup (m.filter q) y = some v := by
  induction m with
  | nil => simp [alookup] at h
  | cons p rest ih =>
    by_cases hp : p.1 = y
    · rw [alookup, if_pos hp] at h
      injection h with hv
      have hpe : p = (y, v) := by
        cases p
        simp only at hp hv
        rw [hp, hv]
      rw [List.filter_cons, hpe, hq]
      simp [alookup]
    · rw [alookup, if_neg hp] at h
      rw [List.filter_cons]
      cases hqp : q p
      · simp only [Bool.false_eq_true, if_false]
        exact ih h
      · simp only [if_true]
        rw [alookup, if_neg hp]
        exact ih h

theorem hasKey_biSet_of_hasKey (m : List (Nat × Nat)) (k v y : Nat)
    (hvals : ∀ p ∈ m, p.2 ≠ v) (h : hasKey m y = true) :
    hasKey (biSet m k v) y = true := by
  by_cases hy : y = k
  · subst hy; simp
  · obtain ⟨w2, hw⟩ : ∃ w2, alookup m y = some w2 := by
      cases hA : alookup m y with
      | none => rw [hasKey, hA] at h; exact absurd h (by simp)
      | some w2 => exact ⟨w2, rfl⟩
    have hmem : (y, w2) ∈ m := by
      clear h hvals
      induction m with
      | nil => simp [alookup] at hw
      | cons p rest ih =>
        by_cases hp : p.1 = y
        · rw [alookup, if_pos hp] at hw
          injection hw with hv
          have hpe : p = (y, w2) := by
            cases p
            simp only at hp hv
            rw [hp, hv]
          rw [← hpe]
          exact List.mem_cons_self p rest
        · rw [alookup, if_neg hp] at hw
          exact List.mem_cons_of_mem _ (ih hw)
    have hq : (fun p => decide (p.1 ≠ k) && decide (p.2 ≠ v)) (y, w2) = true := by
      simp only [Bool.and_eq_true, decide_eq_true_eq]
      exact ⟨hy, hvals (y, w2) hmem⟩
    rw [hasKey, biSet, alookup, if_neg (fun hc => hy hc.symm)]
    rw [alookup_filter_of_alookup m _ y w2 hw hq]
    rfl

/-- The entries of biSet are the new pair plus surviving old entries. -/
theorem mem_biSet (m : List (Nat × Nat)) (k v : Nat) (p : Nat × Nat)
    (hp : p ∈ biSet m k v) : p = (k, v) ∨ p ∈ m := by
  rcases List.mem_cons.1 hp with h | h
  · exact Or.inl h
  · exact Or.inr (List.mem_filter.1 h).1

theorem regenCreateStep_vals (t : Nat) (s1 : DriverState) (ck : Nat)
    (hvals : ∀ p ∈ s1.tiles, p.2 < s1.engine.nextAtId) :
    ∀ p ∈ (regenCreateStep t s1 ck).tiles, p.2 < (regenCreateStep t s1 ck).engine.nextAtId := by
  unfold regenCreateStep
  split
  · exact hvals
  · intro p hp
    dsimp only at hp ⊢
    rcases mem_biSet _ _ _ p hp with rfl | h
    · exact Nat.lt_succ_self _
    · exact Nat.lt_succ_of_lt (hvals p h)

theorem regenCreateStep_self (t : Nat) (s1 : DriverState) (ck : Nat) :
    hasKey (regenCreateStep t s1 ck).tiles ck = true := by
  unfold regenCreateStep
  split
  · next h => exact h
  · exact hasKey_biSet_self _ _ _

theorem regenCreateStep_hasKey (t : Nat) (s1 : DriverState) (ck y : Nat)
    (hvals : ∀ p ∈ s1.tiles, p.2 < s1.engine.nextAtId)
    (h : hasKey s1.tiles y = true) :
    hasKey (regenCreateStep t s1 ck).tiles y = true := by
  unfold regenCreateStep
  split
  · exact h
  · exact hasKey_biSet_of_hasKey _ _ _ _
      (fun p hp => Nat.ne_of_lt (hvals p hp)) h

theorem regenCreateStep_atiles_none (t : Nat) (s1 : DriverState) (ck y : Nat)
    (h : alookup s1.engine.atiles y = none) (hy : y < s1.engine.nextAtId) :
    alookup (regenCreateStep t s1 ck).engine.atiles y = none ∧
    y < (regenCreateStep t s1 ck).engine.nextAtId := by
  unfold regenCreateStep
  split
  · exact ⟨h, hy⟩
  · refine ⟨?_, Nat.lt_succ_of_lt hy⟩
    dsimp only
    unfold addChildA
    rw [alookup, if_neg (fun hc => absurd hc (Nat.ne_of_gt hy))]
    exact alookup_aupdate_none _ _ _ _ h

theorem regenCreateStep_kstore (t : Nat) (s1 : DriverState) (ck : Nat) :
    (regenCreateStep t s1 ck).kstore = s1.kstore := by
  unfold regenCreateStep
  split <;> rfl

theorem fold2_preserves_none (t : Nat) : ∀ (cks : List Nat) (s1 : DriverState) (y : Nat),
    alookup s1.engine.atiles y = none → y < s1.engine.nextAtId →
    alookup ((cks.foldl (regenCreateStep t) s1).engine.atiles) y = none := by
  intro cks
  induction cks with
  | nil => intro s1 y h hy; exact h
  | cons b rest ih =>
    intro s1 y h hy
    obtain ⟨h2, hy2⟩ := regenCreateStep_atiles_none t s1 b y h hy
    exact ih _ y h2 hy2

theorem fold2_hasKey_preserve (t : Nat) : ∀ (cks : List Nat) (s1 : DriverState) (y : Nat),
    (∀ p ∈ s1.tiles, p.2 < s1.engine.nextAtId) → hasKey s1.tiles y = true →
    hasKey ((cks.foldl (regenCreateStep t) s1).tiles) y = true := by
  intro cks
  induction cks with
  | nil => intro s1 y hv h; exact h
  | cons b rest ih =>
    intro s1 y hv h
    exact ih _ y (regenCreateStep_vals t s1 b hv) (regenCreateStep_hasKey t s1 b y hv h)

theorem fold2_hasKey (t : Nat) : ∀ (cks : List Nat) (s1 : DriverState) (ck : Nat),
    ck ∈ cks → (∀ p ∈ s1.tiles, p.2 < s1.engine.nextAtId) →
    hasKey ((cks.foldl (regenCreateStep t) s1).tiles) ck = true := by
  intro cks
  induction cks with
  | nil => intro s1 ck h; cases h
  | cons b rest ih =>
    intro s1 ck hck hvals
    rcases List.mem_cons.1 hck with rfl | h2
    · rw [List.foldl_cons]
      exact fold2_hasKey_preserve t rest _ ck (regenCreateStep_vals t s1 ck hvals)
        (regenCreateStep_self t s1 ck)
    · rw [List.foldl_cons]
      exact ih _ ck h2 (regenCreateStep_vals t s1 b hvals)

theorem fold2_kstore (t : Nat) : ∀ (cks : List Nat) (s1 : DriverState),
    ((cks.foldl (regenCreateStep t) s1)).kstore = s1.kstore := by
  intro cks
  induction cks with
  | nil => intro s1; rfl
  | cons b rest ih =>
    intro s1
    rw [List.foldl_cons, ih, regenCreateStep_kstore]

theorem regenProcessTile_kstore (s : DriverState) (kt : Nat) :
    (regenProcessTile s kt).1.kstore = s.kstore := by
  unfold regenProcessTile
  cases hT : alookup s.tiles kt with
  | none => rfl
  | some t =>
    dsimp only
    split
    · rw [fold2_kstore, (fold1_frame _ _).1]
    · rfl

/-- Without the tiles-mutable flag, one regenerateLayout iteration
changes no structure: maps, live store and abstract tree stay put, only
the requested size (and possibly the log) changes. -/
theorem regenProcessTile_noflag (s : DriverState) (kt : Nat)
    (h : s.engine.engineCapability &&& EngineCapability.TilesMutable ≠
        EngineCapability.TilesMutable) :
    (regenProcessTile s kt).1.tiles = s.tiles ∧
    (regenProcessTile s kt).1.kstore = s.kstore ∧
    (regenProcessTile s kt).1.engine.atiles = s.engine.atiles ∧
    (regenProcessTile s kt).1.engine.engineCapability = s.engine.engineCapability := by
  unfold regenProcessTile
  cases hT : alookup s.tiles kt with
  | none => exact ⟨rfl, rfl, rfl, rfl⟩
  | some t =>
    dsimp only
    rw [if_neg h]
    exact ⟨rfl, rfl, rfl, rfl⟩

theorem regenBfs_noflag : ∀ (fuel : Nat) (q : List Nat) (s : DriverState),
    (s.engine.engineCapability &&& EngineCapability.TilesMutable ≠
        EngineCapability.TilesMutable) →
    (regenBfs fuel s q).tiles = s.tiles ∧
    (regenBfs fuel s q).kstore = s.kstore ∧
    (regenBfs fuel s q).engine.atiles = s.engine.atiles := by
  intro fuel
  induction fuel with
  | zero => intro q s h; cases q <;> exact ⟨rfl, rfl, rfl⟩
  | succ n ih =>
    intro q s h
    cases q with
    | nil => exact ⟨rfl, rfl, rfl⟩
    | cons kt rest =>
      unfold regenBfs
      dsimp only
      obtain ⟨p1, p2, p3, p4⟩ := regenProcessTile_noflag s kt h
      obtain ⟨r1, r2, r3⟩ := ih (rest ++ (regenProcessTile s kt).2) (regenProcessTile s kt).1
        (by rw [p4]; exact h)
      exact ⟨r1.trans p1, r2.trans p2, r3.trans p3⟩

/-- Claim C4 amended: structure is synchronized if and only if the
tiles-mutable capability is present, but the synchronization acts the
other way round from the claim: with the flag, for a visited live tile,
every abstract child of its abstract counterpart that lacks a live
counterpart in the tile map is removed from the abstract tree (the
accompanying inverse-map deletion is a no-op, the binding being absent),
and every live child lacking a mapped abstract counterpart gets a fresh
abstract child node created and registered in the tile map; no live tile
is created or destroyed by the pass in either case; without the flag,
neither tree changes shape and the tile map is untouched — only sizes
propagate.  The two bound hypotheses encode object identity: every
registered abstract id and abstract child id predates the fresh-id
counter of the engine. -/
theorem c4_structure_sync_amended (s : DriverState) (kt t : Nat) (node : ATileData)
    (kd : KTileData)
    (hT : alookup s.tiles kt = some t)
    (hnode : alookup s.engine.atiles t = some node)
    (hkd : alookup s.kstore kt = some kd)
    (hvals : ∀ p ∈ s.tiles, p.2 < s.engine.nextAtId)
    (hch : ∀ x ∈ node.children, x < s.engine.nextAtId) :
    ((s.engine.engineCapability &&& EngineCapability.TilesMutable ≠
        EngineCapability.TilesMutable) →
      ∀ fuel q, (regenBfs fuel s q).tiles = s.tiles ∧
        (regenBfs fuel s q).kstore = s.kstore ∧
        (regenBfs fuel s q).engine.atiles = s.engine.atiles) ∧
    ((s.engine.engineCapability &&& EngineCapability.TilesMutable =
        EngineCapability.TilesMutable) →
      (∀ x ∈ node.children, alookupInv s.tiles x = none →
        alookup (regenProcessTile s kt).1.engine.atiles x = none) ∧
      (∀ ck ∈ kd.tiles, hasKey (regenProcessTile s kt).1.tiles ck = true) ∧
      (regenProcessTile s kt).1.kstore = s.kstore) := by
  constructor
  · intro hno fuel q
    exact regenBfs_noflag fuel q s hno
  · intro hflag
    refine ⟨?_, ?_, regenProcessTile_kstore s kt⟩
    · intro x hx hix
      unfold regenProcessTile
      rw [hT]
      dsimp only
      rw [if_pos hflag, hnode, hkd]
      simp only [Option.map_some', Option.getD_some]
      rw [(fold1_frame _ _).1]
      dsimp only
      rw [hkd]
      simp only [Option.map_some', Option.getD_some]
      refine fold2_preserves_none t kd.tiles _ x
        (fold1_removes node.children _ x hx hix) ?_
      rw [(fold1_frame _ _).2]
      exact hch x hx
    · intro ck hck
      unfold regenProcessTile
      rw [hT]
      dsimp only
      rw [if_pos hflag, hnode, hkd]
      simp only [Option.map_some', Option.getD_some]
      rw [(fold1_frame _ _).1]
      dsimp only
      rw [hkd]
      simp only [Option.map_some', Option.getD_some]
      refine fold2_hasKey t kd.tiles _ ck hck ?_
      intro p hp
      rw [fold1_tiles] at hp
      rw [(fold1_frame _ _).2]
      exact hvals p hp

/-- Concrete state for C4: tiles-mutable engine (capability bit 2), live
root 0 mapped to abstract 10; the abstract root has a child 11 with no
live counterpart, and the live root has a child 1 with no abstract
counterpart. -/
def c4state : DriverState :=
  { engine := { es0 with
      atiles := [(10, { children := [11], client := none, layoutDirection := 0 }),
                 (11, { children := [], client := none, layoutDirection := 0 })],
      rootId := 10, engineCapability := 2, nextAtId := 20 },
    engineType := 0, tiles := [(0, 10)], clients := [], untiledWindows := [],
    kstore := [(0, { kd0 with tiles := [1] }),
               (1, { tiles := [], parent := some 0, layoutDirection := 0,
                     rel := ⟨0, 0, 50, 50⟩, abs := ⟨0, 0, 50, 50⟩, padding := 0 })],
    windows := [], windowExtensions := [], managedTiles := [], activeWindow := none,
    nextLiveId := 2, nextClientId := 0, maximizeSingle := false, logs := [] }

/-- Counterexample to claim C4 as stated: with the tiles-mutable flag,
the live child 1 that lacks an abstract counterpart is NOT removed from
the tile map nor destroyed on the live side — it ends registered in the
tile map and still under the live root; instead it is the abstract child
11 lacking a live counterpart that is destroyed, on the abstract side. -/
theorem c4_counterexample :
    hasKey (regenerateLayout okOps c4state 0).1.tiles 1 = true ∧
    (alookup (regenerateLayout okOps c4state 0).1.kstore 0).map (fun kd => kd.tiles) =
      some [1] ∧
    alookup (regenerateLayout okOps c4state 0).1.engine.atiles 11 = none :=
  ⟨rfl, rfl, rfl⟩

/-- Witness for the amended C4 at the concrete state. -/
theorem c4_witness :
    ((c4state.engine.engineCapability &&& EngineCapability.TilesMutable ≠
        EngineCapability.TilesMutable) →
      ∀ fuel q, (regenBfs fuel c4state q).tiles = c4state.tiles ∧
        (regenBfs fuel c4state q).kstore = c4state.kstore ∧
        (regenBfs fuel c4state q).engine.atiles = c4state.engine.atiles) ∧
    ((c4state.engine.engineCapability &&& EngineCapability.TilesMutable =
        EngineCapability.TilesMutable) →
      (∀ x ∈ ATileData.children { children := [11], client := none, layoutDirection := 0 },
        alookupInv c4state.tiles x = none →
        alookup (regenProcessTile c4state 0).1.engine.atiles x = none) ∧
      (∀ ck ∈ KTileData.tiles { kd0 with tiles := [1] },
        hasKey (regenProcessTile c4state 0).1.tiles ck = true) ∧
      (regenProcessTile c4state 0).1.kstore = c4state.kstore) :=
  c4_structure_sync_amended c4state 0 10
    { children := [11], client := none, layoutDirection := 0 }
    { kd0 with tiles := [1] }
    rfl rfl rfl (by decide) (by decide)
